import Mathlib

/-!
Shallow embedding of `datacube/index/_datasets.py` (dataset indexing, access
and search) together with the narrow backing-store interface it consumes.

Pure Python values (documents, datasets, queries) become inductive types.
The stateful backing store becomes an explicit state (`DbState`) threaded
through a result type `MRes`: every operation returns its `Except` outcome,
the post-state, and the list of store events it issued (events let us talk
about operation ordering and about which store calls were made).
-/

set_option maxHeartbeats 1000000
set_option linter.unusedVariables false

/-- Dataset identifiers (UUIDs in the source, kept abstract as strings). -/
abbrev DsId := String

/-- A metadata document: an opaque remainder `rest` plus the
`lineage.source_datasets` sub-document, which maps a classifier label to the
full metadata document of the source dataset.  This is the part of the
document that `DatasetResource.add` strips and restores and that
`DatasetResource.get` rewrites during lineage reconstruction. -/
inductive MDoc where
  | mk (rest : String) (lineage_sources : List (String × MDoc))

/-- The opaque (non-lineage) part of the document. -/
def MDoc.rest : MDoc → String
  | .mk r _ => r

/-- The `lineage.source_datasets` sub-document. -/
def MDoc.lineage_sources : MDoc → List (String × MDoc)
  | .mk _ l => l

/-- Assignment `dataset_reader(metadata_doc).sources = x`
(writes `metadata_doc['lineage']['source_datasets']`). -/
def MDoc.setSources : MDoc → List (String × MDoc) → MDoc
  | .mk r _, l => .mk r l

mutual

/-- Structural equality of documents (Python `==` on nested dicts). -/
def MDoc.beq : MDoc → MDoc → Bool
  | .mk r1 l1, .mk r2 l2 => r1 == r2 && MDoc.beqList l1 l2

/-- Structural equality of lineage mappings, pointwise and in order. -/
def MDoc.beqList : List (String × MDoc) → List (String × MDoc) → Bool
  | [], [] => true
  | (c1, d1) :: t1, (c2, d2) :: t2 => c1 == c2 && MDoc.beq d1 d2 && MDoc.beqList t1 t2
  | _, _ => false

end

mutual

/-- Modelled from the spec: `jsonify_document` (from `datacube.utils`, not in
the shown slice) normalizes a document to its JSON form before the duplicate
comparison.  Our abstract documents are already in normal form, so
normalization rebuilds the document unchanged. -/
def jsonify_document : MDoc → MDoc
  | .mk r l => .mk r (jsonify_list l)

/-- Normalization of a lineage mapping, entry by entry. -/
def jsonify_list : List (String × MDoc) → List (String × MDoc)
  | [] => []
  | (c, d) :: t => (c, jsonify_document d) :: jsonify_list t

end

/-- An in-memory `datacube.model.Dataset`: id, product (dataset type) id,
metadata document, `sources` mapping (classifier → source dataset) and an
optional local storage URI. -/
inductive Dataset where
  | mk (id : DsId) (type_id : Nat) (metadata_doc : MDoc)
       (sources : List (String × Dataset)) (local_uri : Option String)

def Dataset.id : Dataset → DsId
  | .mk i _ _ _ _ => i

def Dataset.type_id : Dataset → Nat
  | .mk _ t _ _ _ => t

def Dataset.metadata_doc : Dataset → MDoc
  | .mk _ _ d _ _ => d

def Dataset.sources : Dataset → List (String × Dataset)
  | .mk _ _ _ s _ => s

def Dataset.local_uri : Dataset → Option String
  | .mk _ _ _ _ u => u

/-- A query value: a scalar (string or number) or an inclusive `Range`. -/
inductive QVal where
  | str (s : String)
  | num (n : Int)
  | range (lo hi : Int)
deriving DecidableEq

/-- A query mapping, insertion ordered like a Python dict. -/
abbrev Query := List (String × QVal)

/-- Python `key in q`. -/
def Query.hasKey (q : Query) (k : String) : Bool :=
  q.any (fun p => p.fst == k)

/-- Python `q[key]` as an option. -/
def Query.find (q : Query) (k : String) : Option QVal :=
  match q.find? (fun p => p.fst == k) with
  | some p => some p.snd
  | none => none

/-- Python `del q[key]`. -/
def Query.del (q : Query) (k : String) : Query :=
  q.filter (fun p => !(p.fst == k))

/-- Python `q[key] = v`: update in place if present, else append. -/
def Query.set (q : Query) (k : String) (v : QVal) : Query :=
  match q with
  | [] => [(k, v)]
  | (k1, v1) :: t => if k1 == k then (k, v) :: t else (k1, v1) :: Query.set t k v

/-- Python `dict(query)`: a shallow copy. -/
def Query.copy (q : Query) : Query := q

/-- Python `tuple(q.keys())`. -/
def Query.keys (q : Query) : List String := q.map Prod.fst

/-- Error taxonomy of the slice (spec §7).  `duplicateRecord` is the benign
race signal the store raises on uniqueness conflicts; `conflict` is the fatal
same-id-different-content error raised by `check_doc_unchanged`; `keyError`
and `attrError` are ordinary Python lookup failures surfacing as exceptions. -/
inductive Err where
  | duplicateRecord (msg : String)
  | conflict (msg : String)
  | keyError (key : String)
  | attrError (msg : String)
  | unknownField (name : String)
  | invalidDoc (msg : String)
deriving DecidableEq

/-- Store events, used to state ordering and round-trip claims. -/
inductive Event where
  | insertDataset (id : DsId)
  | insertSource (classifier : String) (dsId srcId : DsId)
  | getDataset (id : DsId)
  | archive (id : DsId)
  | ensureLocation (id : DsId)
  | searchStore
  | countStore
deriving DecidableEq

/-- A stored dataset row.  `fieldVals` are the per-field values the store
extracted for search (field extraction itself is the store's concern, out of
scope per spec §1; rows in the initial state may carry arbitrary values). -/
structure DsRow where
  id : DsId
  dataset_type_ref : Nat
  metadata : MDoc
  local_uri : Option String
  fieldVals : List (String × QVal)

/-- A stored metadata-type definition: its name, the search-field names its
`dataset` section declares, and the opaque remainder of the document. -/
structure MTDef where
  name : String
  fields : List String
  body : String
deriving DecidableEq

/-- A stored metadata-type record. -/
structure MTRecord where
  id : Nat
  name : String
  definition : MTDef
deriving DecidableEq

/-- A stored dataset-type (product) definition. -/
structure DTDef where
  name : String
  metadata_type : String
  body : String
deriving DecidableEq

/-- A stored dataset-type (product) record. -/
structure DTRecord where
  id : Nat
  name : String
  metadata_type_ref : Nat
  definition : DTDef
deriving DecidableEq

/-- A source-edge row: classifier label, dependent dataset id, source id. -/
structure SourceEdge where
  classifier : String
  dataset_ref : DsId
  source_dataset_ref : DsId
deriving DecidableEq

/-- The backing store's state. -/
structure DbState where
  datasets : List DsRow
  sourceEdges : List SourceEdge
  locations : List (DsId × String)
  archived : List DsId
  metadata_types : List MTRecord
  dataset_types : List DTRecord

/-- Result of one stateful operation: outcome, post-state, events issued. -/
abbrev MRes (α : Type) := Except Err α × DbState × List Event

/-- A stateful operation over the store. -/
abbrev M (α : Type) := DbState → MRes α

def M.pure {α : Type} (a : α) : M α := fun s => (Except.ok a, s, [])

def M.bind {α β : Type} (m : M α) (f : α → M β) : M β := fun s =>
  match m s with
  | (Except.ok a, s1, tr1) =>
    match f a s1 with
    | (r, s2, tr2) => (r, s2, tr1 ++ tr2)
  | (Except.error e, s1, tr1) => (Except.error e, s1, tr1)

instance : Monad M where
  pure := M.pure
  bind := M.bind

/-- Raise an exception. -/
def M.raise {α : Type} (e : Err) : M α := fun s => (Except.error e, s, [])

/-- `try body except DuplicateRecordError as e: handler` — only the benign
duplicate signal is caught; the handler sees the state as of the raise
(partial writes inside the `try` stay applied, as on a live connection). -/
def M.catchDup {α : Type} (m : M α) (h : String → M α) : M α := fun s =>
  match m s with
  | (Except.error (Err.duplicateRecord msg), s1, tr1) =>
    match h msg s1 with
    | (r, s2, tr2) => (r, s2, tr1 ++ tr2)
  | other => other

/-- Modelled from the spec: the store's scoped transaction (`begin()` yields
a context "with guaranteed commit-or-rollback on exit", spec §6): if the body
ends in an error the pre-transaction state is restored, otherwise the body's
writes commit. -/
def M.begin {α : Type} (m : M α) : M α := fun s =>
  match m s with
  | (Except.ok a, s1, tr) => (Except.ok a, s1, tr)
  | (Except.error e, _, tr) => (Except.error e, s, tr)

/-- Emit a store event. -/
def M.emit (ev : Event) : M Unit := fun s => (Except.ok (), s, [ev])

/-! ## Backing-store primitives (spec §6; the store itself is out of scope,
so these are modelled from the spec's interface description). -/

/-- Modelled from the spec: `getMetadataType(id)`. -/
def Db.get_metadata_type (id_ : Nat) : M (Option MTRecord) := fun s =>
  (Except.ok (s.metadata_types.find? (fun r => r.id == id_)), s, [])

/-- Modelled from the spec: `getMetadataType byName(name)`. -/
def Db.get_metadata_type_by_name (name : String) : M (Option MTRecord) := fun s =>
  (Except.ok (s.metadata_types.find? (fun r => r.name == name)), s, [])

/-- Modelled from the spec: `addMetadataType(name, definition, concurrently)`
registers the definition under a fresh id; `concurrently` selects the
non-exclusive index build and does not change the stored record. -/
def Db.add_metadata_type (name : String) (definition : MTDef) (concurrently : Bool) : M Unit :=
  fun s =>
    let fresh := s.metadata_types.foldl (fun m r => max m r.id) 0 + 1
    (Except.ok (), { s with metadata_types := s.metadata_types ++ [⟨fresh, name, definition⟩] }, [])

/-- Modelled from the spec: `getDatasetType(id)`. -/
def Db.get_dataset_type (id_ : Nat) : M (Option DTRecord) := fun s =>
  (Except.ok (s.dataset_types.find? (fun r => r.id == id_)), s, [])

/-- Modelled from the spec: `getDatasetType byName(name)`. -/
def Db.get_dataset_type_by_name (name : String) : M (Option DTRecord) := fun s =>
  (Except.ok (s.dataset_types.find? (fun r => r.name == name)), s, [])

/-- Modelled from the spec: `addDatasetType(name, metadata, metadataTypeId,
definition)` registers the product under a fresh id. -/
def Db.add_dataset_type (name : String) (metadata_type_id : Nat) (definition : DTDef) : M Unit :=
  fun s =>
    let fresh := s.dataset_types.foldl (fun m r => max m r.id) 0 + 1
    (Except.ok (),
     { s with dataset_types := s.dataset_types ++ [⟨fresh, name, metadata_type_id, definition⟩] },
     [])

/-- Modelled from the spec: `getAllDatasetTypes()`. -/
def Db.get_all_dataset_types : M (List DTRecord) := fun s =>
  (Except.ok s.dataset_types, s, [])

/-- Modelled from the spec: `containsDataset(id)`. -/
def Db.contains_dataset (id_ : DsId) : M Bool := fun s =>
  (Except.ok (s.datasets.any (fun r => r.id == id_)), s, [])

/-- Modelled from the spec: `getDataset(id)` (a row or `None`). -/
def Db.get_dataset (id_ : DsId) : M (Option DsRow) := fun s =>
  (Except.ok (s.datasets.find? (fun r => r.id == id_)), s, [Event.getDataset id_])

/-- Modelled from the spec: `insertDataset(doc, id, typeId) -> wasInserted`.
In the single-writer semantics embedded here the uniqueness conflict is
reported by returning `false` (the row already exists); the
`DuplicateRecordError` raise covers concurrent races outside this model. -/
def Db.insert_dataset (doc : MDoc) (id_ : DsId) (typeId : Nat) : M Bool := fun s =>
  match s.datasets.find? (fun r => r.id == id_) with
  | some _ => (Except.ok false, s, [Event.insertDataset id_])
  | none =>
    (Except.ok true,
     { s with datasets := s.datasets ++ [⟨id_, typeId, doc, none, []⟩] },
     [Event.insertDataset id_])

/-- Modelled from the spec: `insertDatasetSource(classifier, datasetId,
sourceId)`; the edge table is unique per (dataset, classifier), a second
insert for the same pair raises `DuplicateRecordError`. -/
def Db.insert_dataset_source (classifier : String) (dsId srcId : DsId) : M Unit := fun s =>
  if s.sourceEdges.any (fun e2 => e2.classifier == classifier && e2.dataset_ref == dsId) then
    (Except.error (Err.duplicateRecord ("duplicate source " ++ classifier ++ " for dataset " ++ dsId)),
     s, [Event.insertSource classifier dsId srcId])
  else
    (Except.ok (),
     { s with sourceEdges := s.sourceEdges ++ [⟨classifier, dsId, srcId⟩] },
     [Event.insertSource classifier dsId srcId])

/-- Modelled from the spec: `ensureDatasetLocation(id, uri)`; duplicate
registration raises `DuplicateRecordError`. -/
def Db.ensure_dataset_location (id_ : DsId) (uri : String) : M Unit := fun s =>
  if s.locations.any (fun p => p.fst == id_ && p.snd == uri) then
    (Except.error (Err.duplicateRecord ("duplicate location for " ++ id_)),
     s, [Event.ensureLocation id_])
  else
    (Except.ok (), { s with locations := s.locations ++ [(id_, uri)] }, [Event.ensureLocation id_])

/-- Modelled from the spec: `archiveStorageUnit(id)` places a soft-delete
marker (no physical deletion). -/
def Db.archive_storage_unit (id_ : DsId) : M Unit := fun s =>
  (Except.ok (), { s with archived := s.archived ++ [id_] }, [Event.archive id_])

/-! ## Resolved in-memory values and the unchanged-document checker. -/

/-- An in-memory `datacube.model.MetadataType`: id, name and the search-field
registry derived from its definition. -/
structure MetadataTypeV where
  id : Nat
  name : String
  dataset_fields : List String
deriving DecidableEq

/-- An in-memory `datacube.model.DatasetType`: id, name, its resolved
metadata type and its definition. -/
structure DatasetTypeV where
  id : Nat
  name : String
  metadata_type : MetadataTypeV
  definition : DTDef
deriving DecidableEq

instance : BEq MDoc := ⟨MDoc.beq⟩

/-- Modelled from the spec: `checkDocUnchanged(existing, incoming, label)`
"failing with a conflict error on mismatch" (spec §6); the conflict message
carries the label, which names the mismatched record. -/
def check_doc_unchanged {α : Type} [BEq α] (existing incoming : α) (label : String) : M Unit :=
  if existing == incoming then M.pure () else M.raise (Err.conflict label)

/-- Modelled from the spec: `get_dataset_fields(query_row)` — the store
derives the field registry from the definition's declared search fields plus
the native type-pinning field `dataset_type_id` (the implicit equality
expression of §4.3 must be compilable against every registry). -/
def Db.get_dataset_fields (definition : MTDef) : List String :=
  "dataset_type_id" :: definition.fields

/-! ## MetadataTypeResource (`_datasets.py` lines 20-101).
The `cachetools` TTL caches on `get`/`get_by_name` are elided: reads go to
the store directly (the cache is a read-through bounded-staleness layer whose
behavior no claim below depends on). -/

/-- `MetadataTypeResource._make`: build the in-memory metadata type from a
stored row (`definition['dataset']` together with the store-derived field
registry).  A `None` row surfaces as a Python `TypeError`/`AttributeError`. -/
def MetadataTypeResource.make (row : Option MTRecord) : M MetadataTypeV :=
  match row with
  | none => M.raise (Err.attrError "NoneType row")
  | some r => M.pure ⟨r.id, r.name, Db.get_dataset_fields r.definition⟩

/-- `MetadataTypeResource.get(id_)` (cache elided). -/
def MetadataTypeResource.get (id_ : Nat) : M MetadataTypeV :=
  M.bind (Db.get_metadata_type id_) (fun row => MetadataTypeResource.make row)

/-- `MetadataTypeResource.get_by_name(name)` (cache elided): `None` when the
record is absent, a normal outcome. -/
def MetadataTypeResource.get_by_name (name : String) : M (Option MetadataTypeV) :=
  M.bind (Db.get_metadata_type_by_name name) (fun row =>
    match row with
    | none => M.pure none
    | some r => M.bind (MetadataTypeResource.make (some r)) (fun v => M.pure (some v)))

/-- `MetadataTypeResource.add(definition, allow_table_lock)`.
`MetadataType.validate` is an external document-validation collaborator
(out of scope per spec §1) and is elided. -/
def MetadataTypeResource.add (definition : MTDef) (allow_table_lock : Bool) :
    M (Option MetadataTypeV) :=
  let name := definition.name
  M.bind (Db.get_metadata_type_by_name name) (fun existing =>
    M.bind
      (match existing with
       | some ex => check_doc_unchanged ex.definition definition ("Metadata Type " ++ name)
       | none => Db.add_metadata_type name definition (!allow_table_lock))
      (fun _ => MetadataTypeResource.get_by_name name))

/-! ## DatasetTypeResource (`_datasets.py` lines 104-227), caches elided. -/

/-- `DatasetTypeResource._make`: resolve the stored row's metadata type (via
the metadata-type resource) and build the in-memory product. -/
def DatasetTypeResource.make (row : Option DTRecord) : M DatasetTypeV :=
  match row with
  | none => M.raise (Err.attrError "NoneType row")
  | some r =>
    M.bind (MetadataTypeResource.get r.metadata_type_ref) (fun mt =>
      M.pure ⟨r.id, r.definition.name, mt, r.definition⟩)

/-- `DatasetTypeResource.get(id_)` (cache elided). -/
def DatasetTypeResource.get (id_ : Nat) : M DatasetTypeV :=
  M.bind (Db.get_dataset_type id_) (fun row => DatasetTypeResource.make row)

/-- `DatasetTypeResource.get_by_name(name)` (cache elided). -/
def DatasetTypeResource.get_by_name (name : String) : M (Option DatasetTypeV) :=
  M.bind (Db.get_dataset_type_by_name name) (fun row =>
    match row with
    | none => M.pure none
    | some r => M.bind (DatasetTypeResource.make (some r)) (fun v => M.pure (some v)))

/-- The in-memory argument to `DatasetTypeResource.add`: a
`datacube.model.DatasetType` built by `from_doc`, carrying its definition and
the already-resolved metadata type. -/
structure DatasetTypeIn where
  name : String
  metadata_type : MetadataTypeV
  definition : DTDef
deriving DecidableEq

/-- `DatasetTypeResource.add(type_)` (`DatasetType.validate` is the external
validation collaborator, elided as out of scope). -/
def DatasetTypeResource.add (type_ : DatasetTypeIn) : M (Option DatasetTypeV) :=
  M.bind (Db.get_dataset_type_by_name type_.name) (fun existing =>
    M.bind
      (match existing with
       | some ex => check_doc_unchanged ex.definition type_.definition
                      ("Dataset type " ++ type_.name)
       | none => Db.add_dataset_type type_.name type_.metadata_type.id type_.definition)
      (fun _ => DatasetTypeResource.get_by_name type_.name))

/-- `DatasetTypeResource.get_all()`: every registered product, resolved. -/
def DatasetTypeResource.get_all : M (List DatasetTypeV) :=
  M.bind Db.get_all_dataset_types (fun rows =>
    rows.foldr
      (fun r acc =>
        M.bind (DatasetTypeResource.make (some r)) (fun v =>
          M.bind acc (fun vs => M.pure (v :: vs))))
      (M.pure []))

/-- `DatasetTypeResource.get_with_fields(field_names)`: the products whose
field registry contains every given name. -/
def DatasetTypeResource.get_with_fields (field_names : List String) : M (List DatasetTypeV) :=
  M.bind DatasetTypeResource.get_all (fun all =>
    M.pure (all.filter (fun t =>
      field_names.all (fun n => t.metadata_type.dataset_fields.contains n))))

/-! ## DatasetResource (`_datasets.py` lines 230-468). -/

/-- A row of the lineage batch: the dataset row together with its parallel
arrays of source ids (nullable) and classifier labels. -/
structure SourceRow where
  row : DsRow
  sources : List (Option DsId)
  classes : List String

/-- One expansion step of source-edge reachability. -/
def DbState.reachStep (s : DbState) (acc : List DsId) : List DsId :=
  let fresh :=
    (acc.flatMap (fun i =>
      (s.sourceEdges.filter (fun e2 => e2.dataset_ref == i)).map
        (fun e2 => e2.source_dataset_ref))).filter (fun j => !acc.contains j)
  acc ++ fresh.eraseDups

/-- Iterated reachability with fuel. -/
def DbState.reachN (s : DbState) : Nat → List DsId → List DsId
  | 0, acc => acc
  | n + 1, acc => DbState.reachN s n (DbState.reachStep s acc)

/-- Modelled from the spec: `getDatasetSources(id)` fetches "in one query,
the full transitive set of rows reachable from `id` via source edges (each
row carries its own parallel arrays of source ids and classifier labels)". -/
def Db.get_dataset_sources (id_ : DsId) : M (List SourceRow) := fun s =>
  let ids := DbState.reachN s (s.datasets.length + 1) [id_]
  let rows := ids.filterMap (fun i =>
    (s.datasets.find? (fun r => r.id == i)).map (fun r =>
      let es := s.sourceEdges.filter (fun e2 => e2.dataset_ref == i)
      (⟨r, es.map (fun e2 => some e2.source_dataset_ref),
         es.map (fun e2 => e2.classifier)⟩ : SourceRow)))
  (Except.ok rows, s, [])

/-- `DatasetResource._make`: project a fetched row into a `Dataset` (product
resolved through the dataset-type resource; a `None` row raises).  The
`sources` mapping starts empty: stored documents are lineage-stripped and the
mapping is populated only by lineage reconstruction. -/
def DatasetResource.make (row : Option DsRow) : M Dataset :=
  match row with
  | none => M.raise (Err.attrError "NoneType row")
  | some r =>
    M.bind (DatasetTypeResource.get r.dataset_type_ref) (fun t =>
      M.pure (Dataset.mk r.id t.id r.metadata [] r.local_uri))

/-- Lookup in the batch table keyed by row id (`datasets[str(source)]`);
row ids in a store batch are unique, so first match suffices. -/
def tableLookup (table : List (DsId × Dataset × SourceRow)) (k : DsId) :
    Option (Dataset × SourceRow) :=
  match table.find? (fun e2 => e2.fst == k) with
  | some e2 => some e2.snd
  | none => none

/-- The zipped comprehension of `get`'s lineage reconstruction (lines
255-262): walk `zip(result['sources'], result['classes'])`; a null source id
is dropped by the `if source` filter; a non-null id is looked up in the batch
table, and a miss raises `KeyError` exactly as Python's `datasets[str(source)]`
does. -/
def resolvePairs (table : List (DsId × Dataset × SourceRow)) :
    List (Option DsId) → List String → Except Err (List (String × Dataset))
  | some srcId :: t1, classifier :: t2 =>
    (match tableLookup table srcId with
     | some entry =>
       match resolvePairs table t1 t2 with
       | Except.ok rest => Except.ok ((classifier, entry.fst) :: rest)
       | Except.error e => Except.error e
     | none => Except.error (Err.keyError srcId))
  | none :: t1, classifier :: t2 => resolvePairs table t1 t2
  | _, _ => Except.ok []

/-- Rewrite one batch entry: the embedded `lineage.source_datasets` section
and the `sources` attribute are rebuilt from the resolved mapping. -/
def resolveEntry (table : List (DsId × Dataset × SourceRow)) (e : DsId × Dataset × SourceRow) :
    Except Err (DsId × Dataset) :=
  match resolvePairs table e.snd.snd.sources e.snd.snd.classes with
  | Except.error err => Except.error err
  | Except.ok pairs =>
    let d := e.snd.fst
    Except.ok (e.fst,
      Dataset.mk d.id d.type_id
        (d.metadata_doc.setSources (pairs.map (fun p => (p.fst, p.snd.metadata_doc))))
        pairs d.local_uri)

/-- Entries of the batch loop, each resolved against the full table. -/
def resolveSourcesAux (table : List (DsId × Dataset × SourceRow)) :
    List (DsId × Dataset × SourceRow) → Except Err (List (DsId × Dataset))
  | [] => Except.ok []
  | e :: t =>
    match resolveEntry table e with
    | Except.error err => Except.error err
    | Except.ok p =>
      match resolveSourcesAux table t with
      | Except.ok rest => Except.ok (p :: rest)
      | Except.error err => Except.error err

/-- The per-batch loop of `get(id, include_sources=True)`: every entry of the
table is rewritten (each entry's lookups resolve against the pre-pass table;
Python's in-place aliasing of the shared document objects is not modelled —
it does not affect which lookups are performed or whether they fail). -/
def resolveSources (table : List (DsId × Dataset × SourceRow)) :
    Except Err (List (DsId × Dataset)) :=
  resolveSourcesAux table table

/-- Build the lookup table `{result['id']: (self._make(result), result)}`. -/
def DatasetResource.makeTable : List SourceRow → M (List (DsId × Dataset × SourceRow))
  | [] => M.pure []
  | r :: t =>
    M.bind (DatasetResource.make (some r.row)) (fun d =>
      M.bind (DatasetResource.makeTable t) (fun rest =>
        M.pure ((r.row.id, d, r) :: rest)))

/-- `DatasetResource.get(id_, include_sources)` (lines 243-263).  Without
sources: fetch the single row and project it (`_make(None)` raises, as the
attribute access on `None` does in Python).  With sources: fetch the
transitive batch, build the lookup table, resolve every entry, and return the
entry matching the requested id (`datasets[id_]` raises `KeyError` if the id
is not in the batch). -/
def DatasetResource.get (id_ : DsId) (include_sources : Bool) : M Dataset :=
  if !include_sources then
    M.bind (Db.get_dataset id_) (fun row => DatasetResource.make row)
  else
    M.bind (Db.get_dataset_sources id_) (fun rows =>
      M.bind (DatasetResource.makeTable rows) (fun table =>
        match resolveSources table with
        | Except.error e => M.raise e
        | Except.ok resolved =>
          match resolved.find? (fun p => p.fst == id_) with
          | some p => M.pure p.snd
          | none => M.raise (Err.keyError id_)))

/-- `DatasetResource.has(dataset)`. -/
def DatasetResource.has (dataset : Dataset) : M Bool :=
  Db.contains_dataset dataset.id

/-- The per-edge loop of `add` (lines 297-298): one `insert_dataset_source`
per classifier → source pair, in mapping order. -/
def DatasetResource.insertEdges (dsId : DsId) : List (String × Dataset) → M Unit
  | [] => M.pure ()
  | (classifier, source_dataset) :: rest =>
    M.bind (Db.insert_dataset_source classifier dsId source_dataset.id)
      (fun _ => DatasetResource.insertEdges dsId rest)

/-- The inner `try` of `add` (lines 295-300): `was_inserted = insert_dataset;
for ...: insert_dataset_source` with `except DuplicateRecordError: warn`.
The handler wraps the row insert and the whole edge loop: a duplicate raised
by an edge insert abandons the remaining edges but keeps `was_inserted` as
already assigned; a duplicate raised by the row insert leaves `was_inserted`
at its initial `False`. -/
def DatasetResource.tryInsert (d : Dataset) (stripped : MDoc) : M Bool := fun s =>
  match Db.insert_dataset stripped d.id d.type_id s with
  | (Except.ok was_inserted, s1, tr1) =>
    (match DatasetResource.insertEdges d.id d.sources s1 with
     | (Except.ok _, s2, tr2) => (Except.ok was_inserted, s2, tr1 ++ tr2)
     | (Except.error (Err.duplicateRecord msg), s2, tr2) => (Except.ok was_inserted, s2, tr1 ++ tr2)
     | (Except.error e, s2, tr2) => (Except.error e, s2, tr1 ++ tr2))
  | (Except.error (Err.duplicateRecord msg), s1, tr1) => (Except.ok false, s1, tr1)
  | (Except.error e, s1, tr1) => (Except.error e, s1, tr1)

/-- The body of `add`'s outer `try` (lines 294-309): the transaction around
the insert attempt, then — only when the insert did not add a new row — the
re-fetch and the unchanged-document check against the lineage-stripped, then
normalized incoming document (`existing` returned by `get` is never `None`
here, so the `if existing` guard always passes). -/
def DatasetResource.addBody (d : Dataset) (stripped : MDoc) : M Unit :=
  M.bind (M.begin (DatasetResource.tryInsert d stripped)) (fun was_inserted =>
    if was_inserted then M.pure ()
    else
      M.bind (DatasetResource.get d.id false) (fun existing =>
        check_doc_unchanged existing.metadata_doc (jsonify_document stripped)
          ("Dataset " ++ d.id)))

/-- The location step of `add` (lines 313-317): register the storage
location, swallowing a duplicate registration. -/
def DatasetResource.addLocation (d : Dataset) : M Unit :=
  match d.local_uri with
  | none => M.pure ()
  | some uri => M.catchDup (Db.ensure_dataset_location d.id uri) (fun _ => M.pure ())

mutual

/-- `DatasetResource.add(dataset, skip_sources)` (lines 277-319), with the
caller's in-memory metadata document as an extra output.  The source mutates
`dataset.metadata_doc` in place — stripping `lineage.source_datasets` before
insertion and restoring it in a `finally` — so the second component observes
that document on every exit path (before the strip it is the original
document untouched). -/
def DatasetResource.add_core (d : Dataset) (skip_sources : Bool) :
    DbState → Except Err Dataset × MDoc × DbState × List Event := fun s =>
  match d with
  | Dataset.mk _ _ _ srcs _ =>
    match (if skip_sources then (Except.ok (), s, ([] : List Event))
           else DatasetResource.addSources srcs s) with
    | (Except.error e, s1, tr1) => (Except.error e, d.metadata_doc, s1, tr1)
    | (Except.ok _, s1, tr1) =>
      let sources_tmp := d.metadata_doc.lineage_sources
      let stripped := d.metadata_doc.setSources []
      match DatasetResource.addBody d stripped s1 with
      | (r, s2, tr2) =>
        let restored := stripped.setSources sources_tmp
        match r with
        | Except.error e => (Except.error e, restored, s2, tr1 ++ tr2)
        | Except.ok _ =>
          match DatasetResource.addLocation d s2 with
          | (Except.ok _, s3, tr3) => (Except.ok d, restored, s3, tr1 ++ tr2 ++ tr3)
          | (Except.error e, s3, tr3) => (Except.error e, restored, s3, tr1 ++ tr2 ++ tr3)

/-- The recursive fan-out of `add` (lines 285-287): each direct source is
added (depth-first, with its own sources first) before the dependent. -/
def DatasetResource.addSources : List (String × Dataset) → M Unit
  | [] => fun s => (Except.ok (), s, [])
  | (classifier, src) :: rest => fun s =>
    match DatasetResource.add_core src false s with
    | (Except.ok _, _, s1, tr1) =>
      (match DatasetResource.addSources rest s1 with
       | (r, s2, tr2) => (r, s2, tr1 ++ tr2))
    | (Except.error e, _, s1, tr1) => (Except.error e, s1, tr1)

end

/-- Public `add`: the result and store effects of `add_core`. -/
def DatasetResource.add (d : Dataset) (skip_sources : Bool) : M Dataset := fun s =>
  match DatasetResource.add_core d skip_sources s with
  | (r, _, s1, tr) => (r, s1, tr)

/-- The archive loop of `replace` (lines 327-328). -/
def DatasetResource.archiveAll : List Dataset → M Unit
  | [] => M.pure ()
  | unit :: rest =>
    M.bind (Db.archive_storage_unit unit.id) (fun _ => DatasetResource.archiveAll rest)

/-- The indexing loop of `replace` (lines 330-332): each new dataset goes
through the standard `add` path. -/
def DatasetResource.addAll : List Dataset → M Unit
  | [] => M.pure ()
  | unit :: rest =>
    M.bind (DatasetResource.add unit false) (fun _ => DatasetResource.addAll rest)

/-- `DatasetResource.replace(old_datasets, new_datasets)` (lines 321-332):
one transaction that archives every old dataset and then indexes every new
one. -/
def DatasetResource.replace (old_datasets new_datasets : List Dataset) : M Unit :=
  M.begin
    (M.bind (DatasetResource.archiveAll old_datasets)
      (fun _ => DatasetResource.addAll new_datasets))

/-! ## Search and count (`_datasets.py` lines 382-468). -/

/-- A compiled field expression: one named field and the requested value or
range (spec §3 "Field Expression"). -/
structure Expression where
  field : String
  value : QVal
deriving DecidableEq

/-- Modelled from the spec: the Field Expression Compiler
(`fields.to_expressions`) "turns a mapping of field-name → value/range into a
set of typed predicate expressions, using a per-schema field registry"; a
field name missing from the registry fails the compilation. -/
def to_expressions (registry : List String) : Query → Except Err (List Expression)
  | [] => Except.ok []
  | (k, v) :: t =>
    if registry.contains k then
      match to_expressions registry t with
      | Except.ok es => Except.ok (⟨k, v⟩ :: es)
      | Except.error e => Except.error e
    else Except.error (Err.unknownField k)

/-- Does one extracted field value satisfy the requested query value?
A `Range` is inclusive on both bounds; scalars compare by equality. -/
def matchVal (fv : QVal) (qv : QVal) : Bool :=
  match qv with
  | QVal.range lo hi =>
    (match fv with
     | QVal.num n => decide (lo ≤ n) && decide (n ≤ hi)
     | _ => false)
  | v => fv == v

/-- Does a stored row satisfy one expression?  `dataset_type_id` is the
store-native product pin; other fields read the row's extracted values. -/
def DsRow.matchesExpr (r : DsRow) (e2 : Expression) : Bool :=
  if e2.field == "dataset_type_id" then
    matchVal (QVal.num (Int.ofNat r.dataset_type_ref)) e2.value
  else
    match r.fieldVals.find? (fun p => p.fst == e2.field) with
    | some p => matchVal p.snd e2.value
    | none => false

/-- Conjunction over all expressions of a query. -/
def DsRow.matchesAll (r : DsRow) (es : List Expression) : Bool :=
  es.all (fun e2 => r.matchesExpr e2)

/-- Modelled from the spec: `searchDatasets(expressions, selectFields?,
withSourceIds?)` returns the rows satisfying every expression. -/
def Db.search_datasets (exprs : List Expression) (return_fields with_source_ids : Bool) :
    M (List DsRow) := fun s =>
  (Except.ok (s.datasets.filter (fun r => r.matchesAll exprs)), s, [Event.searchStore])

/-- Modelled from the spec: `countDatasets(expressions)` returns the number
of rows satisfying every expression. -/
def Db.count_datasets (exprs : List Expression) : M Nat := fun s =>
  (Except.ok (s.datasets.filter (fun r => r.matchesAll exprs)).length, s, [Event.countStore])

/-- `DatasetResource._get_dataset_types(q)` (lines 398-408).  With a
`product` key: the single named product, possibly `None` (a non-string
product value matches no stored name).  Without: the products declaring all
of the query's fields.  Source lines 405-406 read `if not types: raise
ValueError(...)`, but `types` there is the generator returned by
`get_with_fields`, and a generator object is always truthy in Python — the
branch is unreachable, so no error is raised even when no type qualifies and
the empty sequence flows through. -/
def DatasetResource.get_dataset_types (q : Query) : M (List (Option DatasetTypeV)) :=
  if q.hasKey "product" then
    match q.find "product" with
    | some (QVal.str name) =>
      M.bind (DatasetTypeResource.get_by_name name) (fun t => M.pure [t])
    | _ => M.pure [none]
  else
    M.bind (DatasetTypeResource.get_with_fields (Query.keys q)) (fun types =>
      M.pure (types.map some))

/-- The per-type loop of `_do_search` (lines 419-429): pin
`q['dataset_type_id']` to the type id, compile the expressions against the
type's registry, and concatenate the store results.  A `None` entry (unknown
`product` name) raises, as `dataset_type.id` does on `None`. -/
def DatasetResource.searchLoop (return_fields with_source_ids : Bool) :
    List (Option DatasetTypeV) → Query → M (List DsRow × Query)
  | [], q => M.pure ([], q)
  | none :: rest, q => M.raise (Err.attrError "NoneType has no attribute id")
  | some dataset_type :: rest, q =>
    let q1 := Query.set q "dataset_type_id" (QVal.num (Int.ofNat dataset_type.id))
    let dataset_fields := dataset_type.metadata_type.dataset_fields
    match to_expressions dataset_fields q1 with
    | Except.error e => M.raise e
    | Except.ok query_exprs =>
      M.bind (Db.search_datasets query_exprs return_fields with_source_ids) (fun rows =>
        M.bind (DatasetResource.searchLoop return_fields with_source_ids rest q1)
          (fun pr => M.pure (rows ++ pr.fst, pr.snd)))

/-- `DatasetResource._do_search(query, return_fields, with_source_ids)`
(lines 410-429).  The first step is `q = dict(query)`: all later mutations
(`del q['product']`, `q['dataset_type_id'] = ...`) apply to the copy `q`.
The second component of the result is the caller's mapping as observable
after the call — it is the untouched `query` precisely because the mutations
target the copy. -/
def DatasetResource.do_search (query : Query) (return_fields with_source_ids : Bool) :
    M (List DsRow × Query) :=
  let q := Query.copy query
  M.bind (DatasetResource.get_dataset_types q) (fun dataset_types =>
    let q1 := if q.hasKey "product" then q.del "product" else q
    M.bind (DatasetResource.searchLoop return_fields with_source_ids dataset_types q1)
      (fun pr => M.pure (pr.fst, query)))

/-- The per-type loop of `_do_count` (lines 440-444): same pinning and
compilation as the search loop, summing the store counts. -/
def DatasetResource.countLoop :
    List (Option DatasetTypeV) → Query → M (Nat × Query)
  | [], q => M.pure (0, q)
  | none :: rest, q => M.raise (Err.attrError "NoneType has no attribute id")
  | some dataset_type :: rest, q =>
    let q1 := Query.set q "dataset_type_id" (QVal.num (Int.ofNat dataset_type.id))
    let dataset_fields := dataset_type.metadata_type.dataset_fields
    match to_expressions dataset_fields q1 with
    | Except.error e => M.raise e
    | Except.ok query_exprs =>
      M.bind (Db.count_datasets query_exprs) (fun n =>
        M.bind (DatasetResource.countLoop rest q1)
          (fun pr => M.pure (n + pr.fst, pr.snd)))

/-- `DatasetResource._do_count(query)` (lines 431-445), second component as
in `do_search`. -/
def DatasetResource.do_count (query : Query) : M (Nat × Query) :=
  let q := Query.copy query
  M.bind (DatasetResource.get_dataset_types q) (fun dataset_types =>
    let q1 := if q.hasKey "product" then q.del "product" else q
    M.bind (DatasetResource.countLoop dataset_types q1)
      (fun pr => M.pure (pr.fst, query)))

/-- `DatasetResource._make_many`: project each row (lines 365-369). -/
def DatasetResource.make_many : List DsRow → M (List Dataset)
  | [] => M.pure []
  | r :: t =>
    M.bind (DatasetResource.make (some r)) (fun d =>
      M.bind (DatasetResource.make_many t) (fun ds => M.pure (d :: ds)))

/-- `DatasetResource.search(**query)` (lines 382-388): `_make_many` over
`_do_search`; forcing the lazy sequence yields this list. -/
def DatasetResource.search (query : Query) : M (List Dataset × Query) :=
  M.bind (DatasetResource.do_search query false false) (fun pr =>
    M.bind (DatasetResource.make_many pr.fst) (fun ds => M.pure (ds, pr.snd)))

/-- `DatasetResource.count(**query)` (lines 390-396). -/
def DatasetResource.count (query : Query) : M (Nat × Query) :=
  DatasetResource.do_count query

/-- `DatasetResource.search_summaries(**query)` (lines 447-460): only the
field projections of each matching row. -/
def DatasetResource.search_summaries (query : Query) :
    M (List (List (String × QVal)) × Query) :=
  M.bind (DatasetResource.do_search query true false) (fun pr =>
    M.pure (pr.fst.map (fun r => r.fieldVals), pr.snd))

/-- `DatasetResource.search_eager(**query)` (lines 462-467):
`list(self.search(**query))`. -/
def DatasetResource.search_eager (query : Query) : M (List Dataset × Query) :=
  DatasetResource.search query

/-! ## Derived notions used by the verification. -/

/-- The stored row for a dataset id, if any. -/
def DbState.lookupDs (s : DbState) (i : DsId) : Option DsRow :=
  s.datasets.find? (fun r => r.id == i)

/-- Number of stored dataset rows carrying the given id. -/
def DbState.countRows (s : DbState) (i : DsId) : Nat :=
  (s.datasets.filter (fun r => r.id == i)).length

/-- Can `DatasetTypeResource.get` resolve this type id in this state
(the product row exists and its metadata type row exists)? -/
def DbState.typeResolvable (s : DbState) (tid : Nat) : Bool :=
  match s.dataset_types.find? (fun r => r.id == tid) with
  | some row => (s.metadata_types.find? (fun r => r.id == row.metadata_type_ref)).isSome
  | none => false

mutual

/-- A dataset is settled in a state: its row is stored with the
lineage-stripped document, the stored row's product resolves, and every
source is settled.  This is the post-state `add` establishes and the
pre-state in which a repeated `add` is a no-op. -/
def settledB (d : Dataset) (s : DbState) : Bool :=
  match d with
  | Dataset.mk i _ doc srcs _ =>
    (match s.lookupDs i with
     | some row =>
       MDoc.beq row.metadata (doc.setSources []) && s.typeResolvable row.dataset_type_ref
     | none => false)
    && settledListB srcs s

/-- All datasets of a sources mapping are settled. -/
def settledListB : List (String × Dataset) → DbState → Bool
  | [], _ => true
  | (c, d) :: t, s => settledB d s && settledListB t s

end

mutual

/-- The dataset's own product id and every transitive source's product id
resolve in the state (the type tables are administrative and `add` never
changes them). -/
def typesOkB (d : Dataset) (s : DbState) : Bool :=
  match d with
  | Dataset.mk _ tid _ srcs _ => s.typeResolvable tid && typesOkListB srcs s

/-- `typesOkB` over a sources mapping. -/
def typesOkListB : List (String × Dataset) → DbState → Bool
  | [], _ => true
  | (c, d) :: t, s => typesOkB d s && typesOkListB t s

end

mutual

/-- Every dataset transitively reachable via `sources` (each source listed
after its own sources, before its dependents). -/
def transSources (d : Dataset) : List Dataset :=
  match d with
  | Dataset.mk _ _ _ srcs _ => transSourcesList srcs

/-- `transSources` over a sources mapping. -/
def transSourcesList : List (String × Dataset) → List Dataset
  | [] => []
  | (c, d) :: t => (transSources d ++ [d]) ++ transSourcesList t

end

/-- Is a lineage batch closed: every non-null source id of every row resolves
in the batch's lookup table? -/
def batchClosed (table : List (DsId × Dataset × SourceRow)) : Bool :=
  table.all (fun e2 =>
    (e2.snd.snd.sources.zip e2.snd.snd.classes).all (fun p =>
      match p.fst with
      | none => true
      | some sid => (tableLookup table sid).isSome))

/-! ## Concrete fixtures used by witnesses and counterexamples. -/

/-- A registered metadata type: name `eo`, one search field `time`. -/
def fixMT : MTRecord := ⟨1, "eo", ⟨"eo", ["time"], "body"⟩⟩

/-- A registered product `ls8` over the `eo` metadata type. -/
def fixDT : DTRecord := ⟨7, "ls8", 1, ⟨"ls8", "eo", "body"⟩⟩

/-- An empty catalog holding just the `eo` type and `ls8` product. -/
def fixS0 : DbState := ⟨[], [], [], [], [fixMT], [fixDT]⟩

/-- A source dataset with no provenance of its own. -/
def fixSrc : Dataset := Dataset.mk "s1" 7 (MDoc.mk "S" []) [] none

/-- A dataset derived from `fixSrc` under classifier `raw`, with a location. -/
def fixD : Dataset :=
  Dataset.mk "d1" 7 (MDoc.mk "D" [("raw", MDoc.mk "S" [])]) [("raw", fixSrc)]
    (some "file:///x")

/-- A different dataset reusing `fixD`'s id with different metadata. -/
def fixD2 : Dataset := Dataset.mk "d1" 7 (MDoc.mk "DIFFERENT" []) [] none

/-- The catalog state after `add fixD`: both rows stored lineage-stripped,
one source edge, one location. -/
def fixS1 : DbState :=
  ⟨[⟨"s1", 7, MDoc.mk "S" [], none, []⟩, ⟨"d1", 7, MDoc.mk "D" [], none, []⟩],
   [⟨"raw", "d1", "s1"⟩], [("d1", "file:///x")], [], [fixMT], [fixDT]⟩

/-- Dataset rows for the search fixtures, with extracted field values. -/
def fixRows : List DsRow :=
  [⟨"r1", 7, MDoc.mk "R1" [], none, [("time", QVal.num 5)]⟩,
   ⟨"r2", 7, MDoc.mk "R2" [], none, [("time", QVal.num 20)]⟩,
   ⟨"r3", 9, MDoc.mk "R3" [], none, [("time", QVal.num 6)]⟩]

/-- A catalog with three dataset rows (one of an unregistered product id). -/
def fixSearchS : DbState := ⟨fixRows, [], [], [], [fixMT], [fixDT]⟩

/-- A query on a field (`platform`) that no registered product declares. -/
def fixNoTypeQuery : Query := [("platform", QVal.str "LANDSAT_8")]

/-- A `time` range query matching only `r1`. -/
def fixTimeQuery : Query := [("time", QVal.range 0 10)]

/-- A lineage-batch row whose parallel arrays name a source id (`b`) that is
not part of the batch, plus a null source that must be skipped. -/
def fixBatchRow : SourceRow :=
  ⟨⟨"a", 7, MDoc.mk "A" [], none, []⟩, [some "b", none], ["raw", "ancillary"]⟩

/-- A single-entry lookup table for the truncated batch. -/
def fixBatchTable : List (DsId × Dataset × SourceRow) :=
  [("a", Dataset.mk "a" 7 (MDoc.mk "A" []) [] none, fixBatchRow)]

/-- An old dataset to be archived by `replace`. -/
def fixOld : Dataset := Dataset.mk "o1" 7 (MDoc.mk "O" []) [] none

/-- C9 fixture: a dependent with three sources whose middle edge already
exists in the store. -/
def fixSA : Dataset := Dataset.mk "sa" 7 (MDoc.mk "SA" []) [] none
def fixSB : Dataset := Dataset.mk "sb" 7 (MDoc.mk "SB" []) [] none
def fixSC : Dataset := Dataset.mk "sc" 7 (MDoc.mk "SC" []) [] none
def fixD9 : Dataset :=
  Dataset.mk "d9" 7 (MDoc.mk "D9" []) [("c0", fixSA), ("raw", fixSB), ("c2", fixSC)] none

/-- A store already holding the (raw, d9) edge but not the `d9` row. -/
def fixS9 : DbState := ⟨[], [⟨"raw", "d9", "zz"⟩], [], [], [fixMT], [fixDT]⟩

/-- C8 fixtures: a metadata-type definition and a product definition. -/
def fixMTDefNew : MTDef := ⟨"telemetry", ["when"], "body"⟩
def fixMTDefDiff : MTDef := ⟨"eo", ["time", "lat"], "body"⟩
def fixDTIn : DatasetTypeIn :=
  ⟨"ls8", ⟨1, "eo", Db.get_dataset_fields ⟨"eo", ["time"], "body"⟩⟩, ⟨"ls8", "eo", "body"⟩⟩
def fixDTInNew : DatasetTypeIn :=
  ⟨"ls7", ⟨1, "eo", Db.get_dataset_fields ⟨"eo", ["time"], "body"⟩⟩, ⟨"ls7", "eo", "body"⟩⟩

/-! ## Basic lemmas about documents. -/

theorem MDoc.setSources_setSources (doc : MDoc) (a b : List (String × MDoc)) :
    (doc.setSources a).setSources b = doc.setSources b := by
  cases doc; rfl

theorem MDoc.setSources_lineage (doc : MDoc) :
    doc.setSources doc.lineage_sources = doc := by
  cases doc; rfl

theorem MDoc.lineage_setSources (doc : MDoc) (a : List (String × MDoc)) :
    (doc.setSources a).lineage_sources = a := by
  cases doc; rfl

mutual

theorem MDoc.beq_iff : ∀ a b : MDoc, (MDoc.beq a b = true ↔ a = b)
  | .mk r1 l1, .mk r2 l2 => by
    rw [MDoc.beq]
    constructor
    · intro h
      have h1 := (Bool.and_eq_true _ _).mp h
      have hr : r1 = r2 := by
        have := h1.left
        simpa using this
      have hl : l1 = l2 := (MDoc.beqList_iff l1 l2).mp h1.right
      rw [hr, hl]
    · intro h
      injection h with hr hl
      rw [hr, hl]
      exact (Bool.and_eq_true _ _).mpr ⟨by simp, (MDoc.beqList_iff l2 l2).mpr rfl⟩

theorem MDoc.beqList_iff : ∀ a b : List (String × MDoc), (MDoc.beqList a b = true ↔ a = b)
  | [], [] => by simp [MDoc.beqList]
  | [], (c2, d2) :: t2 => by simp [MDoc.beqList]
  | (c1, d1) :: t1, [] => by simp [MDoc.beqList]
  | (c1, d1) :: t1, (c2, d2) :: t2 => by
    rw [MDoc.beqList]
    constructor
    · intro h
      have h1 := (Bool.and_eq_true _ _).mp h
      have h2 := (Bool.and_eq_true _ _).mp h1.left
      have hc : c1 = c2 := by simpa using h2.left
      have hd : d1 = d2 := (MDoc.beq_iff d1 d2).mp h2.right
      have ht : t1 = t2 := (MDoc.beqList_iff t1 t2).mp h1.right
      rw [hc, hd, ht]
    · intro h
      injection h with h1 ht
      injection h1 with hc hd
      rw [hc, hd, ht]
      exact (Bool.and_eq_true _ _).mpr
        ⟨(Bool.and_eq_true _ _).mpr ⟨by simp, (MDoc.beq_iff d2 d2).mpr rfl⟩,
         (MDoc.beqList_iff t2 t2).mpr rfl⟩

end

theorem MDoc.beq_refl (a : MDoc) : MDoc.beq a a = true :=
  (MDoc.beq_iff a a).mpr rfl

theorem MDoc.beq_eq_iff (a b : MDoc) : (a == b) = true ↔ a = b :=
  MDoc.beq_iff a b

mutual

theorem jsonify_document_id : ∀ d : MDoc, jsonify_document d = d
  | .mk r l => by rw [jsonify_document, jsonify_list_id l]

theorem jsonify_list_id : ∀ l : List (String × MDoc), jsonify_list l = l
  | [] => by rw [jsonify_list]
  | (c, d) :: t => by rw [jsonify_list, jsonify_document_id d, jsonify_list_id t]

end

/-! ## Effect lemmas for the steps of `add`. -/

theorem lookup_append_of_some {l1 l2 : List DsRow} {p : DsRow → Bool} {row : DsRow}
    (h : l1.find? p = some row) : (l1 ++ l2).find? p = some row := by
  rw [List.find?_append, h]
  rfl

theorem lookup_append_of_none {l1 l2 : List DsRow} {p : DsRow → Bool}
    (h : l1.find? p = none) : (l1 ++ l2).find? p = l2.find? p := by
  rw [List.find?_append, h]
  rfl

theorem insertEdges_effects : ∀ (l : List (String × Dataset)) (i : DsId) (s : DbState),
    (DatasetResource.insertEdges i l s).2.1.datasets = s.datasets ∧
    (DatasetResource.insertEdges i l s).2.1.dataset_types = s.dataset_types ∧
    (DatasetResource.insertEdges i l s).2.1.metadata_types = s.metadata_types ∧
    (DatasetResource.insertEdges i l s).2.1.archived = s.archived ∧
    ((DatasetResource.insertEdges i l s).1 = Except.ok () ∨
     ∃ m, (DatasetResource.insertEdges i l s).1 = Except.error (Err.duplicateRecord m))
  | [], i, s => by
    refine ⟨rfl, rfl, rfl, rfl, Or.inl rfl⟩
  | (c, src) :: t, i, s => by
    by_cases hdup :
        (s.sourceEdges.any (fun e2 => e2.classifier == c && e2.dataset_ref == i)) = true
    · have heq : DatasetResource.insertEdges i ((c, src) :: t) s =
          (Except.error (Err.duplicateRecord
             ("duplicate source " ++ c ++ " for dataset " ++ i)),
           s, [Event.insertSource c i src.id]) := by
        simp [DatasetResource.insertEdges, M.bind, Db.insert_dataset_source, hdup]
      rw [heq]
      exact ⟨rfl, rfl, rfl, rfl, Or.inr ⟨_, rfl⟩⟩
    · have h1 := insertEdges_effects t i
        { s with sourceEdges := s.sourceEdges ++ [⟨c, i, src.id⟩] }
      have heq : DatasetResource.insertEdges i ((c, src) :: t) s =
          (match DatasetResource.insertEdges i t
              { s with sourceEdges := s.sourceEdges ++ [⟨c, i, src.id⟩] } with
           | (r, s2, tr2) => (r, s2, [Event.insertSource c i src.id] ++ tr2)) := by
        simp [DatasetResource.insertEdges, M.bind, Db.insert_dataset_source, hdup]
      rw [heq]
      cases he : DatasetResource.insertEdges i t
          { s with sourceEdges := s.sourceEdges ++ [⟨c, i, src.id⟩] } with
      | mk r rest =>
        cases rest with
        | mk s2 tr2 =>
          rw [he] at h1
          exact ⟨h1.1, h1.2.1, h1.2.2.1, h1.2.2.2.1, by
            rcases h1.2.2.2.2 with h | ⟨m, h⟩
            · exact Or.inl h
            · exact Or.inr ⟨m, h⟩⟩

theorem insertEdges_trace : ∀ (l : List (String × Dataset)) (i : DsId) (s : DbState),
    ∀ ev ∈ (DatasetResource.insertEdges i l s).2.2, ∃ c a b, ev = Event.insertSource c a b
  | [], i, s => by
    intro ev hev
    simp [DatasetResource.insertEdges, M.pure] at hev
  | (c, src) :: t, i, s => by
    intro ev hev
    by_cases hdup :
        (s.sourceEdges.any (fun e2 => e2.classifier == c && e2.dataset_ref == i)) = true
    · simp [DatasetResource.insertEdges, M.bind, Db.insert_dataset_source, hdup] at hev
      exact ⟨c, i, src.id, hev⟩
    · have heq : DatasetResource.insertEdges i ((c, src) :: t) s =
          (match DatasetResource.insertEdges i t
              { s with sourceEdges := s.sourceEdges ++ [⟨c, i, src.id⟩] } with
           | (r, s2, tr2) => (r, s2, [Event.insertSource c i src.id] ++ tr2)) := by
        simp [DatasetResource.insertEdges, M.bind, Db.insert_dataset_source, hdup]
      rw [heq] at hev
      cases he : DatasetResource.insertEdges i t
          { s with sourceEdges := s.sourceEdges ++ [⟨c, i, src.id⟩] } with
      | mk r rest =>
        cases rest with
        | mk s2 tr2 =>
          rw [he] at hev
          simp only [List.singleton_append, List.mem_cons] at hev
          rcases hev with hev | hev
          · exact ⟨c, i, src.id, hev⟩
          · have := insertEdges_trace t i
              { s with sourceEdges := s.sourceEdges ++ [⟨c, i, src.id⟩] } ev
            rw [he] at this
            exact this hev

theorem tryInsert_fresh (d : Dataset) (stripped : MDoc) (s : DbState)
    (h : s.lookupDs d.id = none) :
    ∃ s2 tr2,
      DatasetResource.tryInsert d stripped s =
        (Except.ok true, s2, Event.insertDataset d.id :: tr2) ∧
      s2.datasets = s.datasets ++ [⟨d.id, d.type_id, stripped, none, []⟩] ∧
      s2.dataset_types = s.dataset_types ∧ s2.metadata_types = s.metadata_types ∧
      s2.archived = s.archived ∧
      (∀ ev ∈ tr2, ∃ c a b, ev = Event.insertSource c a b) := by
  have hins : Db.insert_dataset stripped d.id d.type_id s =
      (Except.ok true,
       { s with datasets := s.datasets ++ [⟨d.id, d.type_id, stripped, none, []⟩] },
       [Event.insertDataset d.id]) := by
    unfold Db.insert_dataset
    rw [show s.datasets.find? (fun r => r.id == d.id) = none from h]
  set s1 : DbState :=
    { s with datasets := s.datasets ++ [⟨d.id, d.type_id, stripped, none, []⟩] } with hs1
  have hstep : DatasetResource.tryInsert d stripped s =
      (match DatasetResource.insertEdges d.id d.sources s1 with
       | (Except.ok a, s2, tr2) =>
         (Except.ok true, s2, [Event.insertDataset d.id] ++ tr2)
       | (Except.error (Err.duplicateRecord msg), s2, tr2) =>
         (Except.ok true, s2, [Event.insertDataset d.id] ++ tr2)
       | (Except.error e, s2, tr2) =>
         (Except.error e, s2, [Event.insertDataset d.id] ++ tr2)) := by
    unfold DatasetResource.tryInsert
    rw [hins]
  have heff := insertEdges_effects d.sources d.id s1
  have htr := insertEdges_trace d.sources d.id s1
  cases he : DatasetResource.insertEdges d.id d.sources s1 with
  | mk r rest =>
    cases rest with
    | mk s2 tr2 =>
      rw [he] at heff htr hstep
      rcases heff.2.2.2.2 with hok | ⟨m, herr⟩
      · subst hok
        exact ⟨s2, tr2, hstep, by rw [heff.1], heff.2.1, heff.2.2.1, heff.2.2.2.1, htr⟩
      · subst herr
        exact ⟨s2, tr2, hstep, by rw [heff.1], heff.2.1, heff.2.2.1, heff.2.2.2.1, htr⟩

theorem tryInsert_present (d : Dataset) (stripped : MDoc) (s : DbState) (row : DsRow)
    (h : s.lookupDs d.id = some row) :
    ∃ s2 tr2,
      DatasetResource.tryInsert d stripped s =
        (Except.ok false, s2, Event.insertDataset d.id :: tr2) ∧
      s2.datasets = s.datasets ∧
      s2.dataset_types = s.dataset_types ∧ s2.metadata_types = s.metadata_types ∧
      s2.archived = s.archived := by
  have hins : Db.insert_dataset stripped d.id d.type_id s =
      (Except.ok false, s, [Event.insertDataset d.id]) := by
    unfold Db.insert_dataset
    rw [show s.datasets.find? (fun r => r.id == d.id) = some row from h]
  have hstep : DatasetResource.tryInsert d stripped s =
      (match DatasetResource.insertEdges d.id d.sources s with
       | (Except.ok a, s2, tr2) =>
         (Except.ok false, s2, [Event.insertDataset d.id] ++ tr2)
       | (Except.error (Err.duplicateRecord msg), s2, tr2) =>
         (Except.ok false, s2, [Event.insertDataset d.id] ++ tr2)
       | (Except.error e, s2, tr2) =>
         (Except.error e, s2, [Event.insertDataset d.id] ++ tr2)) := by
    unfold DatasetResource.tryInsert
    rw [hins]
  have heff := insertEdges_effects d.sources d.id s
  cases he : DatasetResource.insertEdges d.id d.sources s with
  | mk r rest =>
    cases rest with
    | mk s2 tr2 =>
      rw [he] at heff hstep
      rcases heff.2.2.2.2 with hok | ⟨m, herr⟩
      · subst hok
        exact ⟨s2, tr2, hstep, heff.1, heff.2.1, heff.2.2.1, heff.2.2.2.1⟩
      · subst herr
        exact ⟨s2, tr2, hstep, heff.1, heff.2.1, heff.2.2.1, heff.2.2.2.1⟩

theorem typeResolvable_congr {s s' : DbState} (t : Nat)
    (h1 : s'.dataset_types = s.dataset_types) (h2 : s'.metadata_types = s.metadata_types) :
    s'.typeResolvable t = s.typeResolvable t := by
  unfold DbState.typeResolvable
  rw [h1, h2]

theorem get_noSources_ok (s : DbState) (i : DsId) (row : DsRow)
    (h : s.lookupDs i = some row) (hres : s.typeResolvable row.dataset_type_ref = true) :
    ∃ ds : Dataset,
      DatasetResource.get i false s = (Except.ok ds, s, [Event.getDataset i]) ∧
      ds.metadata_doc = row.metadata := by
  unfold DbState.typeResolvable at hres
  cases htrow : s.dataset_types.find? (fun r => r.id == row.dataset_type_ref) with
  | none => rw [htrow] at hres; simp at hres
  | some trow =>
    rw [htrow] at hres
    have hres2 : (s.metadata_types.find? (fun r => r.id == trow.metadata_type_ref)).isSome
        = true := by simpa using hres
    cases hmrow : s.metadata_types.find? (fun r => r.id == trow.metadata_type_ref) with
    | none => rw [hmrow] at hres2; simp at hres2
    | some mtrow =>
      have h1 : s.datasets.find? (fun r => r.id == i) = some row := h
      refine ⟨Dataset.mk row.id trow.id row.metadata [] row.local_uri, ?_, rfl⟩
      simp only [DatasetResource.get, Bool.not_false, if_true, M.bind, Db.get_dataset, h1,
                 DatasetResource.make, DatasetTypeResource.get, Db.get_dataset_type, htrow,
                 DatasetTypeResource.make, MetadataTypeResource.get, Db.get_metadata_type,
                 hmrow, MetadataTypeResource.make, M.pure, List.append_nil, List.nil_append]

theorem addLocation_effects (d : Dataset) (s : DbState) :
    ∃ s' tr, DatasetResource.addLocation d s = (Except.ok (), s', tr) ∧
      s'.datasets = s.datasets ∧ s'.dataset_types = s.dataset_types ∧
      s'.metadata_types = s.metadata_types ∧ s'.archived = s.archived ∧
      (∀ ev ∈ tr, ∃ j, ev = Event.ensureLocation j) := by
  cases hu : d.local_uri with
  | none =>
    exact ⟨s, [], by simp [DatasetResource.addLocation, hu, M.pure], rfl, rfl, rfl, rfl,
      by intro ev hev; simp at hev⟩
  | some uri =>
    by_cases hl : (s.locations.any (fun p => p.fst == d.id && p.snd == uri)) = true
    · refine ⟨s, [Event.ensureLocation d.id], ?_, rfl, rfl, rfl, rfl, ?_⟩
      · simp [DatasetResource.addLocation, hu, M.catchDup, Db.ensure_dataset_location, hl,
              M.pure]
      · intro ev hev
        simp at hev
        exact ⟨d.id, hev⟩
    · refine ⟨{ s with locations := s.locations ++ [(d.id, uri)] },
        [Event.ensureLocation d.id], ?_, rfl, rfl, rfl, rfl, ?_⟩
      · simp [DatasetResource.addLocation, hu, M.catchDup, Db.ensure_dataset_location, hl,
              M.pure]
      · intro ev hev
        simp at hev
        exact ⟨d.id, hev⟩

theorem addBody_fresh (d : Dataset) (stripped : MDoc) (s : DbState)
    (h : s.lookupDs d.id = none) :
    ∃ s' tr2,
      DatasetResource.addBody d stripped s =
        (Except.ok (), s', Event.insertDataset d.id :: tr2) ∧
      s'.datasets = s.datasets ++ [⟨d.id, d.type_id, stripped, none, []⟩] ∧
      s'.dataset_types = s.dataset_types ∧ s'.metadata_types = s.metadata_types ∧
      s'.archived = s.archived ∧
      (∀ ev ∈ tr2, ∃ c a b, ev = Event.insertSource c a b) := by
  obtain ⟨s2, tr2, hti, hd, hdt, hmt, ha, htr⟩ := tryInsert_fresh d stripped s h
  refine ⟨s2, tr2, ?_, hd, hdt, hmt, ha, htr⟩
  unfold DatasetResource.addBody
  simp only [M.bind, M.begin, hti, if_true, M.pure, List.append_nil]

theorem addBody_present_check (d : Dataset) (stripped : MDoc) (s : DbState) (row : DsRow)
    (h : s.lookupDs d.id = some row)
    (hres : s.typeResolvable row.dataset_type_ref = true) :
    ∃ s' tr,
      DatasetResource.addBody d stripped s =
        ((if row.metadata == jsonify_document stripped then Except.ok ()
          else Except.error (Err.conflict ("Dataset " ++ d.id))), s', tr) ∧
      s'.datasets = s.datasets ∧
      s'.dataset_types = s.dataset_types ∧ s'.metadata_types = s.metadata_types ∧
      s'.archived = s.archived ∧ Event.getDataset d.id ∈ tr := by
  obtain ⟨s2, tr2, hti, hd, hdt, hmt, ha⟩ := tryInsert_present d stripped s row h
  have h2 : s2.lookupDs d.id = some row := by
    unfold DbState.lookupDs at h ⊢
    rw [hd]
    exact h
  have hres2 : s2.typeResolvable row.dataset_type_ref = true := by
    rw [typeResolvable_congr _ hdt hmt]
    exact hres
  obtain ⟨ds, hget, hdoc⟩ := get_noSources_ok s2 d.id row h2 hres2
  refine ⟨s2, (Event.insertDataset d.id :: tr2) ++ ([Event.getDataset d.id] ++ []), ?_, hd,
    hdt, hmt, ha, by simp⟩
  by_cases hbeq : (row.metadata == jsonify_document stripped) = true
  · simp [DatasetResource.addBody, M.bind, M.begin, hti, hget, check_doc_unchanged, hdoc,
          hbeq, M.pure]
  · simp [DatasetResource.addBody, M.bind, M.begin, hti, hget, check_doc_unchanged, hdoc,
          hbeq, M.pure, M.raise]

theorem MetadataTypeResource_get_state (t : Nat) (s : DbState) :
    (MetadataTypeResource.get t s).2.1 = s := by
  unfold MetadataTypeResource.get M.bind Db.get_metadata_type
  cases h : s.metadata_types.find? (fun r => r.id == t) with
  | none => simp [MetadataTypeResource.make, M.raise]
  | some r => simp [MetadataTypeResource.make, M.pure]

theorem DatasetTypeResource_get_state (t : Nat) (s : DbState) :
    (DatasetTypeResource.get t s).2.1 = s := by
  unfold DatasetTypeResource.get M.bind Db.get_dataset_type
  cases h : s.dataset_types.find? (fun r => r.id == t) with
  | none => simp [DatasetTypeResource.make, M.raise]
  | some r =>
    simp only [DatasetTypeResource.make, M.bind]
    have hmt := MetadataTypeResource_get_state r.metadata_type_ref s
    cases hg : MetadataTypeResource.get r.metadata_type_ref s with
    | mk r1 rest =>
      cases rest with
      | mk s1 tr1 =>
        rw [hg] at hmt
        simp only at hmt
        subst hmt
        cases r1 with
        | ok v => simp [M.pure]
        | error e => simp

theorem make_state (row : Option DsRow) (s : DbState) :
    (DatasetResource.make row s).2.1 = s := by
  cases row with
  | none => simp [DatasetResource.make, M.raise]
  | some r =>
    simp only [DatasetResource.make, M.bind]
    have hdt := DatasetTypeResource_get_state r.dataset_type_ref s
    cases hg : DatasetTypeResource.get r.dataset_type_ref s with
    | mk r1 rest =>
      cases rest with
      | mk s1 tr1 =>
        rw [hg] at hdt
        simp only at hdt
        subst hdt
        cases r1 with
        | ok v => simp [M.pure]
        | error e => simp

theorem get_noSources_state (i : DsId) (s : DbState) :
    (DatasetResource.get i false s).2.1 = s := by
  simp only [DatasetResource.get, Bool.not_false, if_true, M.bind, Db.get_dataset]
  have hm := make_state (s.datasets.find? (fun r => r.id == i)) s
  cases hg : DatasetResource.make (s.datasets.find? (fun r => r.id == i)) s with
  | mk r1 rest =>
    cases rest with
    | mk s1 tr1 =>
      rw [hg] at hm
      simp only at hm
      subst hm
      cases r1 with
      | ok v => simp
      | error e => simp

theorem addBody_preserves (d : Dataset) (stripped : MDoc) (s : DbState) :
    ∃ ext,
      (DatasetResource.addBody d stripped s).2.1.datasets = s.datasets ++ ext ∧
      (DatasetResource.addBody d stripped s).2.1.dataset_types = s.dataset_types ∧
      (DatasetResource.addBody d stripped s).2.1.metadata_types = s.metadata_types ∧
      (DatasetResource.addBody d stripped s).2.1.archived = s.archived := by
  cases hl : s.lookupDs d.id with
  | none =>
    obtain ⟨s', tr2, hb, hd, hdt, hmt, ha, htr⟩ := addBody_fresh d stripped s hl
    exact ⟨[⟨d.id, d.type_id, stripped, none, []⟩], by rw [hb]; exact hd, by rw [hb]; exact hdt,
      by rw [hb]; exact hmt, by rw [hb]; exact ha⟩
  | some row =>
    obtain ⟨s2, tr2, hti, hd, hdt, hmt, ha⟩ := tryInsert_present d stripped s row hl
    have h2 : s2.lookupDs d.id = some row := by
      unfold DbState.lookupDs at hl ⊢
      rw [hd]; exact hl
    have hgs := get_noSources_state d.id s2
    cases hg : DatasetResource.get d.id false s2 with
    | mk r1 rest =>
      cases rest with
      | mk s3 tr3 =>
        rw [hg] at hgs
        simp only at hgs
        subst hgs
        cases r1 with
        | ok existing =>
          by_cases hbeq :
              (existing.metadata_doc == jsonify_document stripped) = true
          · refine ⟨[], ?_⟩
            simp [DatasetResource.addBody, M.bind, M.begin, hti, hg,
                  check_doc_unchanged, hbeq, M.pure, hd, hdt, hmt, ha]
          · refine ⟨[], ?_⟩
            simp [DatasetResource.addBody, M.bind, M.begin, hti, hg,
                  check_doc_unchanged, hbeq, M.pure, M.raise, hd, hdt, hmt, ha]
        | error e =>
          refine ⟨[], ?_⟩
          simp [DatasetResource.addBody, M.bind, M.begin, hti, hg, M.pure, hd, hdt, hmt, ha]

theorem get_noSources_fail (s : DbState) (i : DsId) (row : DsRow)
    (h : s.lookupDs i = some row) (hres : s.typeResolvable row.dataset_type_ref = false) :
    ∃ e, DatasetResource.get i false s = (Except.error e, s, [Event.getDataset i]) := by
  have h1 : s.datasets.find? (fun r => r.id == i) = some row := h
  unfold DbState.typeResolvable at hres
  cases htrow : s.dataset_types.find? (fun r => r.id == row.dataset_type_ref) with
  | none =>
    refine ⟨Err.attrError "NoneType row", ?_⟩
    simp [DatasetResource.get, M.bind, Db.get_dataset, h1, DatasetResource.make,
          DatasetTypeResource.get, Db.get_dataset_type, htrow, DatasetTypeResource.make,
          M.raise]
  | some trow =>
    rw [htrow] at hres
    have hres2 : (s.metadata_types.find? (fun r => r.id == trow.metadata_type_ref)).isSome
        = false := by simpa using hres
    cases hmrow : s.metadata_types.find? (fun r => r.id == trow.metadata_type_ref) with
    | some mtrow => rw [hmrow] at hres2; simp at hres2
    | none =>
      refine ⟨Err.attrError "NoneType row", ?_⟩
      simp [DatasetResource.get, M.bind, Db.get_dataset, h1, DatasetResource.make,
            DatasetTypeResource.get, Db.get_dataset_type, htrow, DatasetTypeResource.make,
            MetadataTypeResource.get, Db.get_metadata_type, hmrow,
            MetadataTypeResource.make, M.raise]

theorem addBody_present_inv (d : Dataset) (stripped : MDoc) (s : DbState) (row : DsRow)
    (h : s.lookupDs d.id = some row)
    (hb : (DatasetResource.addBody d stripped s).1 = Except.ok ()) :
    s.typeResolvable row.dataset_type_ref = true ∧
    (row.metadata == jsonify_document stripped) = true := by
  by_cases hres : s.typeResolvable row.dataset_type_ref = true
  · obtain ⟨s', tr, heq, _, _, _, _, _⟩ := addBody_present_check d stripped s row h hres
    rw [heq] at hb
    by_cases hbeq : (row.metadata == jsonify_document stripped) = true
    · exact ⟨hres, hbeq⟩
    · rw [if_neg hbeq] at hb
      cases hb
  · exfalso
    obtain ⟨s2, tr2, hti, hd, hdt, hmt, ha⟩ := tryInsert_present d stripped s row h
    have h2 : s2.lookupDs d.id = some row := by
      unfold DbState.lookupDs at h ⊢
      rw [hd]; exact h
    have hres2 : s2.typeResolvable row.dataset_type_ref = false := by
      rw [typeResolvable_congr _ hdt hmt]
      exact Bool.not_eq_true _ ▸ (by simpa using hres)
    obtain ⟨e, hgf⟩ := get_noSources_fail s2 d.id row h2 hres2
    rw [show DatasetResource.addBody d stripped s =
        (Except.error e, s2,
         (Event.insertDataset d.id :: tr2) ++ ([Event.getDataset d.id] ++ [])) from by
      simp [DatasetResource.addBody, M.bind, M.begin, hti, hgf]] at hb
    cases hb

mutual

theorem add_core_preserves : ∀ (d : Dataset) (skip : Bool) (s : DbState),
    ∃ ext,
      (DatasetResource.add_core d skip s).2.2.1.datasets = s.datasets ++ ext ∧
      (DatasetResource.add_core d skip s).2.2.1.dataset_types = s.dataset_types ∧
      (DatasetResource.add_core d skip s).2.2.1.metadata_types = s.metadata_types ∧
      (DatasetResource.add_core d skip s).2.2.1.archived = s.archived
  | Dataset.mk i tid doc srcs uri, skip, s => by
    cases skip with
    | true =>
      have hb := addBody_preserves (Dataset.mk i tid doc srcs uri) (doc.setSources []) s
      obtain ⟨ext1, hb1, hb2, hb3, hb4⟩ := hb
      cases hab : DatasetResource.addBody (Dataset.mk i tid doc srcs uri)
          (doc.setSources []) s with
      | mk r rest =>
        cases rest with
        | mk s2 tr2 =>
          rw [hab] at hb1 hb2 hb3 hb4
          simp only at hb1 hb2 hb3 hb4
          have hloc := addLocation_effects (Dataset.mk i tid doc srcs uri) s2
          obtain ⟨s3, tr3, hl1, hl2, hl3, hl4, hl5, _⟩ := hloc
          cases r with
          | error e =>
            refine ⟨ext1, ?_⟩
            simp [DatasetResource.add_core, Dataset.metadata_doc, Dataset.sources, hab,
                  hb1, hb2, hb3, hb4]
          | ok u =>
            refine ⟨ext1, ?_⟩
            simp [DatasetResource.add_core, Dataset.metadata_doc, Dataset.sources, hab, hl1,
                  hl2, hl3, hl4, hl5, hb1, hb2, hb3, hb4]
    | false =>
      have hsrc := addSources_preserves srcs s
      obtain ⟨ext0, hs1, hs2, hs3, hs4⟩ := hsrc
      cases has : DatasetResource.addSources srcs s with
      | mk r0 rest0 =>
        cases rest0 with
        | mk s1 tr1 =>
          rw [has] at hs1 hs2 hs3 hs4
          simp only at hs1 hs2 hs3 hs4
          cases r0 with
          | error e =>
            refine ⟨ext0, ?_⟩
            simp [DatasetResource.add_core, Dataset.metadata_doc, Dataset.sources, has,
                  hs1, hs2, hs3, hs4]
          | ok u0 =>
            have hb := addBody_preserves (Dataset.mk i tid doc srcs uri)
              (doc.setSources []) s1
            obtain ⟨ext1, hb1, hb2, hb3, hb4⟩ := hb
            cases hab : DatasetResource.addBody (Dataset.mk i tid doc srcs uri)
                (doc.setSources []) s1 with
            | mk r rest =>
              cases rest with
              | mk s2 tr2 =>
                rw [hab] at hb1 hb2 hb3 hb4
                simp only at hb1 hb2 hb3 hb4
                have hloc := addLocation_effects (Dataset.mk i tid doc srcs uri) s2
                obtain ⟨s3, tr3, hl1, hl2, hl3, hl4, hl5, _⟩ := hloc
                cases r with
                | error e =>
                  refine ⟨ext0 ++ ext1, ?_⟩
                  simp [DatasetResource.add_core, Dataset.metadata_doc, Dataset.sources,
                        has, hab, hb1, hb2, hb3, hb4, hs1, hs2, hs3, hs4]
                | ok u =>
                  refine ⟨ext0 ++ ext1, ?_⟩
                  simp [DatasetResource.add_core, Dataset.metadata_doc, Dataset.sources,
                        has, hab, hl1, hl2, hl3, hl4, hl5, hb1, hb2, hb3, hb4,
                        hs1, hs2, hs3, hs4]

theorem addSources_preserves : ∀ (l : List (String × Dataset)) (s : DbState),
    ∃ ext,
      (DatasetResource.addSources l s).2.1.datasets = s.datasets ++ ext ∧
      (DatasetResource.addSources l s).2.1.dataset_types = s.dataset_types ∧
      (DatasetResource.addSources l s).2.1.metadata_types = s.metadata_types ∧
      (DatasetResource.addSources l s).2.1.archived = s.archived
  | [], s => ⟨[], by simp [DatasetResource.addSources], by simp [DatasetResource.addSources],
      by simp [DatasetResource.addSources], by simp [DatasetResource.addSources]⟩
  | (c, src) :: t, s => by
    have h1 := add_core_preserves src false s
    obtain ⟨ext1, ha1, ha2, ha3, ha4⟩ := h1
    cases hac : DatasetResource.add_core src false s with
    | mk r rest =>
      cases rest with
      | mk doc1 rest1 =>
        cases rest1 with
        | mk s1 tr1 =>
          rw [hac] at ha1 ha2 ha3 ha4
          simp only at ha1 ha2 ha3 ha4
          cases r with
          | error e =>
            refine ⟨ext1, ?_⟩
            simp [DatasetResource.addSources, hac, ha1, ha2, ha3, ha4]
          | ok u =>
            have h2 := addSources_preserves t s1
            obtain ⟨ext2, hb1, hb2, hb3, hb4⟩ := h2
            cases hat : DatasetResource.addSources t s1 with
            | mk r2 rest2 =>
              cases rest2 with
              | mk s2 tr2 =>
                rw [hat] at hb1 hb2 hb3 hb4
                simp only at hb1 hb2 hb3 hb4
                refine ⟨ext1 ++ ext2, ?_⟩
                simp [DatasetResource.addSources, hac, hat, hb1, hb2, hb3, hb4,
                      ha1, ha2, ha3, ha4]

end

mutual

theorem settledB_mono : ∀ (d : Dataset) (s s' : DbState) (ext : List DsRow),
    settledB d s = true → s'.datasets = s.datasets ++ ext →
    s'.dataset_types = s.dataset_types → s'.metadata_types = s.metadata_types →
    settledB d s' = true
  | Dataset.mk i tid doc srcs uri, s, s', ext => by
    intro hs hd hdt hmt
    unfold settledB at hs ⊢
    obtain ⟨h1, h2⟩ := (Bool.and_eq_true _ _).mp hs
    cases hl : s.lookupDs i with
    | none => rw [hl] at h1; cases h1
    | some row =>
      rw [hl] at h1
      have h1' : (row.metadata.beq (doc.setSources []) &&
          s.typeResolvable row.dataset_type_ref) = true := h1
      have hl' : s'.lookupDs i = some row := by
        unfold DbState.lookupDs at hl ⊢
        rw [hd]
        exact lookup_append_of_some hl
      rw [hl']
      show ((row.metadata.beq (doc.setSources []) &&
          s'.typeResolvable row.dataset_type_ref) && settledListB srcs s') = true
      rw [typeResolvable_congr _ hdt hmt]
      exact (Bool.and_eq_true _ _).mpr ⟨h1', settledListB_mono srcs s s' ext h2 hd hdt hmt⟩

theorem settledListB_mono : ∀ (l : List (String × Dataset)) (s s' : DbState)
    (ext : List DsRow),
    settledListB l s = true → s'.datasets = s.datasets ++ ext →
    s'.dataset_types = s.dataset_types → s'.metadata_types = s.metadata_types →
    settledListB l s' = true
  | [], s, s', ext => by
    intro hs hd hdt hmt
    unfold settledListB
    rfl
  | (c, d) :: t, s, s', ext => by
    intro hs hd hdt hmt
    unfold settledListB at hs ⊢
    obtain ⟨h1, h2⟩ := (Bool.and_eq_true _ _).mp hs
    exact (Bool.and_eq_true _ _).mpr
      ⟨settledB_mono d s s' ext h1 hd hdt hmt, settledListB_mono t s s' ext h2 hd hdt hmt⟩

end

mutual

theorem typesOkB_mono : ∀ (d : Dataset) (s s' : DbState),
    typesOkB d s = true →
    s'.dataset_types = s.dataset_types → s'.metadata_types = s.metadata_types →
    typesOkB d s' = true
  | Dataset.mk i tid doc srcs uri, s, s' => by
    intro hs hdt hmt
    unfold typesOkB at hs ⊢
    obtain ⟨h1, h2⟩ := (Bool.and_eq_true _ _).mp hs
    rw [typeResolvable_congr _ hdt hmt]
    exact (Bool.and_eq_true _ _).mpr ⟨h1, typesOkListB_mono srcs s s' h2 hdt hmt⟩

theorem typesOkListB_mono : ∀ (l : List (String × Dataset)) (s s' : DbState),
    typesOkListB l s = true →
    s'.dataset_types = s.dataset_types → s'.metadata_types = s.metadata_types →
    typesOkListB l s' = true
  | [], s, s' => by
    intro hs hdt hmt
    unfold typesOkListB
    rfl
  | (c, d) :: t, s, s' => by
    intro hs hdt hmt
    unfold typesOkListB at hs ⊢
    obtain ⟨h1, h2⟩ := (Bool.and_eq_true _ _).mp hs
    exact (Bool.and_eq_true _ _).mpr
      ⟨typesOkB_mono d s s' h1 hdt hmt, typesOkListB_mono t s s' h2 hdt hmt⟩

end

mutual

theorem add_core_settles : ∀ (d : Dataset) (s : DbState) (a : Dataset),
    typesOkB d s = true →
    (DatasetResource.add_core d false s).1 = Except.ok a →
    settledB d (DatasetResource.add_core d false s).2.2.1 = true
  | Dataset.mk i tid doc srcs uri, s, a => by
    intro hty hok
    obtain ⟨hty1, hty2⟩ := (Bool.and_eq_true _ _).mp (by
      unfold typesOkB at hty
      exact hty)
    have hsp := addSources_preserves srcs s
    obtain ⟨ext0, hs1, hs2, hs3, hs4⟩ := hsp
    cases has : DatasetResource.addSources srcs s with
    | mk r0 rest0 =>
      cases rest0 with
      | mk s1 tr1 =>
        rw [has] at hs1 hs2 hs3 hs4
        simp only at hs1 hs2 hs3 hs4
        cases r0 with
        | error e =>
          exfalso
          rw [show (DatasetResource.add_core (Dataset.mk i tid doc srcs uri) false s).1 =
              Except.error e from by
            simp [DatasetResource.add_core, has]] at hok
          cases hok
        | ok u0 =>
          have hsettledSrc : settledListB srcs s1 = true := by
            have := addSources_settles srcs s hty2
            rw [has] at this
            exact this rfl
          cases hl : s1.lookupDs (Dataset.mk i tid doc srcs uri).id with
          | none =>
            obtain ⟨s2, tr2, hab, hd, hdt, hmt, ha, htr⟩ :=
              addBody_fresh (Dataset.mk i tid doc srcs uri) (doc.setSources []) s1 hl
            obtain ⟨s3, tr3, hl1, hl2, hl3, hl4, hl5, _⟩ :=
              addLocation_effects (Dataset.mk i tid doc srcs uri) s2
            have hfinal :
                (DatasetResource.add_core (Dataset.mk i tid doc srcs uri) false s).2.2.1
                  = s3 := by
              simp [DatasetResource.add_core, has, Dataset.metadata_doc, Dataset.sources,
                    hab, hl1]
            rw [hfinal]
            have hrow : s3.lookupDs i = some ⟨i, tid, doc.setSources [], none, []⟩ := by
              unfold DbState.lookupDs
              rw [hl2, hd]
              have hnone : s1.datasets.find? (fun r => r.id == i) = none := hl
              rw [lookup_append_of_none hnone]
              simp [Dataset.id, Dataset.type_id]
            unfold settledB
            rw [hrow]
            have hres3 : s3.typeResolvable tid = true := by
              rw [@typeResolvable_congr s s3 tid (by rw [hl3, hdt, hs2])
                    (by rw [hl4, hmt, hs3])]
              exact hty1
            refine (Bool.and_eq_true _ _).mpr ⟨?_, ?_⟩
            · show (MDoc.beq (doc.setSources []) (doc.setSources []) &&
                s3.typeResolvable tid) = true
              rw [MDoc.beq_refl, hres3]
              rfl
            · refine settledListB_mono srcs s1 s3
                [⟨i, tid, doc.setSources [], none, []⟩] hsettledSrc ?_ ?_ ?_
              · rw [hl2, hd]
                rfl
              · rw [hl3, hdt]
              · rw [hl4, hmt]
          | some row =>
            have hbp := addBody_preserves (Dataset.mk i tid doc srcs uri)
              (doc.setSources []) s1
            obtain ⟨ext1, hb1, hb2, hb3, hb4⟩ := hbp
            cases hab : DatasetResource.addBody (Dataset.mk i tid doc srcs uri)
                (doc.setSources []) s1 with
            | mk r rest =>
              cases rest with
              | mk s2 tr2 =>
                rw [hab] at hb1 hb2 hb3 hb4
                simp only at hb1 hb2 hb3 hb4
                cases r with
                | error e =>
                  exfalso
                  rw [show (DatasetResource.add_core (Dataset.mk i tid doc srcs uri)
                      false s).1 = Except.error e from by
                    simp [DatasetResource.add_core, has, Dataset.metadata_doc,
                          Dataset.sources, hab]] at hok
                  cases hok
                | ok u =>
                  have hinv := addBody_present_inv (Dataset.mk i tid doc srcs uri)
                    (doc.setSources []) s1 row hl (by rw [hab])
                  obtain ⟨hres1, hbeq1⟩ := hinv
                  obtain ⟨s3, tr3, hl1, hl2, hl3, hl4, hl5, _⟩ :=
                    addLocation_effects (Dataset.mk i tid doc srcs uri) s2
                  have hfinal :
                      (DatasetResource.add_core (Dataset.mk i tid doc srcs uri)
                        false s).2.2.1 = s3 := by
                    simp [DatasetResource.add_core, has, Dataset.metadata_doc,
                          Dataset.sources, hab, hl1]
                  rw [hfinal]
                  have hrow : s3.lookupDs i = some row := by
                    unfold DbState.lookupDs
                    rw [hl2, hb1]
                    exact lookup_append_of_some hl
                  unfold settledB
                  rw [hrow]
                  have hres3 : s3.typeResolvable row.dataset_type_ref = true := by
                    rw [@typeResolvable_congr s1 s3 row.dataset_type_ref
                          (by rw [hl3, hb2]) (by rw [hl4, hb3])]
                    exact hres1
                  have hbeq2 : MDoc.beq row.metadata (doc.setSources []) = true := by
                    have : row.metadata == jsonify_document (doc.setSources []) := hbeq1
                    rw [jsonify_document_id] at this
                    exact this
                  refine (Bool.and_eq_true _ _).mpr ⟨?_, ?_⟩
                  · show (MDoc.beq row.metadata (doc.setSources []) &&
                      s3.typeResolvable row.dataset_type_ref) = true
                    rw [hbeq2, hres3]
                    rfl
                  · refine settledListB_mono srcs s1 s3 ext1 hsettledSrc ?_ ?_ ?_
                    · rw [hl2, hb1]
                    · rw [hl3, hb2]
                    · rw [hl4, hb3]

theorem addSources_settles : ∀ (l : List (String × Dataset)) (s : DbState),
    typesOkListB l s = true →
    (DatasetResource.addSources l s).1 = Except.ok () →
    settledListB l (DatasetResource.addSources l s).2.1 = true
  | [], s => by
    intro hty hok
    unfold settledListB
    rfl
  | (c, src) :: t, s => by
    intro hty hok
    obtain ⟨hty1, hty2⟩ := (Bool.and_eq_true _ _).mp (by
      unfold typesOkListB at hty
      exact hty)
    have hap := add_core_preserves src false s
    obtain ⟨ext1, ha1, ha2, ha3, ha4⟩ := hap
    cases hac : DatasetResource.add_core src false s with
    | mk r rest =>
      cases rest with
      | mk doc1 rest1 =>
        cases rest1 with
        | mk s1 tr1 =>
          rw [hac] at ha1 ha2 ha3 ha4
          simp only at ha1 ha2 ha3 ha4
          cases r with
          | error e =>
            exfalso
            rw [show (DatasetResource.addSources ((c, src) :: t) s).1 = Except.error e
                from by simp [DatasetResource.addSources, hac]] at hok
            cases hok
          | ok aa =>
            have hsettled1 : settledB src s1 = true := by
              have := add_core_settles src s aa hty1
              rw [hac] at this
              exact this rfl
            have hsp := addSources_preserves t s1
            obtain ⟨ext2, hb1, hb2, hb3, hb4⟩ := hsp
            cases hat : DatasetResource.addSources t s1 with
            | mk r2 rest2 =>
              cases rest2 with
              | mk s2 tr2 =>
                rw [hat] at hb1 hb2 hb3 hb4
                simp only at hb1 hb2 hb3 hb4
                cases r2 with
                | error e =>
                  exfalso
                  rw [show (DatasetResource.addSources ((c, src) :: t) s).1 =
                      Except.error e from by
                    simp [DatasetResource.addSources, hac, hat]] at hok
                  cases hok
                | ok u2 =>
                  have hsettled2 : settledListB t s2 = true := by
                    have := addSources_settles t s1 (typesOkListB_mono t s s1 hty2 ha2 ha3)
                    rw [hat] at this
                    exact this rfl
                  have hfinal : (DatasetResource.addSources ((c, src) :: t) s).2.1 = s2 := by
                    simp [DatasetResource.addSources, hac, hat]
                  rw [hfinal]
                  unfold settledListB
                  refine (Bool.and_eq_true _ _).mpr ⟨?_, hsettled2⟩
                  exact settledB_mono src s1 s2 ext2 hsettled1 hb1 hb2 hb3

end

mutual

theorem add_core_idem : ∀ (d : Dataset) (s : DbState),
    settledB d s = true →
    ∃ s' tr,
      DatasetResource.add_core d false s = (Except.ok d, d.metadata_doc, s', tr) ∧
      s'.datasets = s.datasets ∧ s'.dataset_types = s.dataset_types ∧
      s'.metadata_types = s.metadata_types
  | Dataset.mk i tid doc srcs uri, s => by
    intro hs
    obtain ⟨h1, h2⟩ := (Bool.and_eq_true _ _).mp (by
      unfold settledB at hs
      exact hs)
    cases hl : s.lookupDs i with
    | none => rw [hl] at h1; cases h1
    | some row =>
      rw [hl] at h1
      have h1' : (row.metadata.beq (doc.setSources []) &&
          s.typeResolvable row.dataset_type_ref) = true := h1
      obtain ⟨hbeq, hres⟩ := (Bool.and_eq_true _ _).mp h1'
      obtain ⟨s1, tr1, has1, hd1, hdt1, hmt1⟩ := addSources_idem srcs s h2
      have hl1 : s1.lookupDs i = some row := by
        unfold DbState.lookupDs at hl ⊢
        rw [hd1]
        exact hl
      have hres1 : s1.typeResolvable row.dataset_type_ref = true := by
        rw [@typeResolvable_congr s s1 row.dataset_type_ref hdt1 hmt1]
        exact hres
      obtain ⟨s2, tr2, hab, hd2, hdt2, hmt2, ha2, _⟩ :=
        addBody_present_check (Dataset.mk i tid doc srcs uri) (doc.setSources []) s1 row
          hl1 hres1
      have hbeq2 : (row.metadata == jsonify_document (doc.setSources [])) = true := by
        rw [jsonify_document_id]
        exact hbeq
      rw [hbeq2, if_pos rfl] at hab
      obtain ⟨s3, tr3, hloc, hld, hldt, hlmt, hla, _⟩ :=
        addLocation_effects (Dataset.mk i tid doc srcs uri) s2
      refine ⟨s3, tr1 ++ tr2 ++ tr3, ?_, by rw [hld, hd2, hd1], by rw [hldt, hdt2, hdt1],
        by rw [hlmt, hmt2, hmt1]⟩
      simp [DatasetResource.add_core, has1, Dataset.metadata_doc, Dataset.sources, hab,
            hloc, MDoc.setSources_setSources, MDoc.setSources_lineage]

theorem addSources_idem : ∀ (l : List (String × Dataset)) (s : DbState),
    settledListB l s = true →
    ∃ s' tr,
      DatasetResource.addSources l s = (Except.ok (), s', tr) ∧
      s'.datasets = s.datasets ∧ s'.dataset_types = s.dataset_types ∧
      s'.metadata_types = s.metadata_types
  | [], s => by
    intro hs
    exact ⟨s, [], by simp [DatasetResource.addSources], rfl, rfl, rfl⟩
  | (c, src) :: t, s => by
    intro hs
    obtain ⟨h1, h2⟩ := (Bool.and_eq_true _ _).mp (by
      unfold settledListB at hs
      exact hs)
    obtain ⟨s1, tr1, hac, hd1, hdt1, hmt1⟩ := add_core_idem src s h1
    have h2' : settledListB t s1 = true :=
      settledListB_mono t s s1 [] h2 (by rw [hd1, List.append_nil]) hdt1 hmt1
    obtain ⟨s2, tr2, hat, hd2, hdt2, hmt2⟩ := addSources_idem t s1 h2'
    refine ⟨s2, tr1 ++ tr2, ?_, by rw [hd2, hd1], by rw [hdt2, hdt1], by rw [hmt2, hmt1]⟩
    simp [DatasetResource.addSources, hac, hat]

end

theorem countRows_zero_of_none {s : DbState} {i : DsId}
    (h : s.lookupDs i = none) : s.countRows i = 0 := by
  unfold DbState.countRows
  have : s.datasets.filter (fun r => r.id == i) = [] := by
    rw [List.filter_eq_nil_iff]
    intro a ha
    exact List.find?_eq_none.mp h a ha
  rw [this]
  rfl

theorem countRows_pos_of_some {s : DbState} {i : DsId} {row : DsRow}
    (h : s.lookupDs i = some row) : 1 ≤ s.countRows i := by
  unfold DbState.countRows
  have hx := List.find?_some h
  have hmem := List.mem_of_find?_eq_some h
  have : row ∈ s.datasets.filter (fun r => r.id == i) :=
    List.mem_filter.mpr ⟨hmem, hx⟩
  exact List.length_pos.mpr (List.ne_nil_of_mem this)

theorem countRows_congr {s s' : DbState} (i : DsId) (h : s'.datasets = s.datasets) :
    s'.countRows i = s.countRows i := by
  unfold DbState.countRows
  rw [h]

theorem addBody_datasets (d : Dataset) (stripped : MDoc) (s : DbState) :
    (DatasetResource.addBody d stripped s).2.1.datasets = s.datasets ∨
    (s.lookupDs d.id = none ∧
     (DatasetResource.addBody d stripped s).2.1.datasets =
       s.datasets ++ [⟨d.id, d.type_id, stripped, none, []⟩]) := by
  cases hl : s.lookupDs d.id with
  | none =>
    obtain ⟨s', tr2, hb, hd, _, _, _, _⟩ := addBody_fresh d stripped s hl
    exact Or.inr ⟨rfl, by rw [hb]; exact hd⟩
  | some row =>
    obtain ⟨s2, tr2, hti, hd, hdt, hmt, ha⟩ := tryInsert_present d stripped s row hl
    have hgs := get_noSources_state d.id s2
    cases hg : DatasetResource.get d.id false s2 with
    | mk r1 rest =>
      cases rest with
      | mk s3 tr3 =>
        rw [hg] at hgs
        simp only at hgs
        subst hgs
        cases r1 with
        | ok existing =>
          by_cases hbeq :
              (existing.metadata_doc == jsonify_document stripped) = true
          · refine Or.inl ?_
            simp [DatasetResource.addBody, M.bind, M.begin, hti, hg,
                  check_doc_unchanged, hbeq, M.pure, hd]
          · refine Or.inl ?_
            simp [DatasetResource.addBody, M.bind, M.begin, hti, hg,
                  check_doc_unchanged, hbeq, M.pure, M.raise, hd]
        | error e =>
          refine Or.inl ?_
          simp [DatasetResource.addBody, M.bind, M.begin, hti, hg, M.pure, hd]

theorem countRows_append_single {s : DbState} {row : DsRow} (j : DsId)
    (s' : DbState) (h : s'.datasets = s.datasets ++ [row]) (hl : s.lookupDs row.id = none) :
    s'.countRows j ≤ max (s.countRows j) 1 := by
  unfold DbState.countRows
  rw [h, List.filter_append]
  by_cases hp : (row.id == j) = true
  · have hij : row.id = j := eq_of_beq hp
    have hzero : s.countRows j = 0 := by
      apply countRows_zero_of_none
      rw [← hij]
      exact hl
    unfold DbState.countRows at hzero
    rw [List.length_append, hzero]
    simp [hp]
  · have : List.filter (fun r => r.id == j) [row] = [] := by
      simp [List.filter, hp]
    rw [this, List.append_nil]
    exact Nat.le_max_left _ _

theorem addBody_count (d : Dataset) (stripped : MDoc) (s : DbState) (j : DsId) :
    (DatasetResource.addBody d stripped s).2.1.countRows j ≤ max (s.countRows j) 1 := by
  rcases addBody_datasets d stripped s with h | ⟨hl, h⟩
  · rw [countRows_congr j h]
    exact Nat.le_max_left _ _
  · exact countRows_append_single j _ h (by simpa [Dataset.id] using hl)

mutual

theorem add_core_count : ∀ (d : Dataset) (skip : Bool) (s : DbState) (j : DsId),
    (DatasetResource.add_core d skip s).2.2.1.countRows j ≤ max (s.countRows j) 1
  | Dataset.mk i tid doc srcs uri, skip, s, j => by
    have hstep : ∀ s1 : DbState,
        (DatasetResource.addBody (Dataset.mk i tid doc srcs uri) (doc.setSources [])
          s1).2.1.countRows j ≤ max (s1.countRows j) 1 :=
      fun s1 => addBody_count (Dataset.mk i tid doc srcs uri) (doc.setSources []) s1 j
    cases skip with
    | true =>
      cases hab : DatasetResource.addBody (Dataset.mk i tid doc srcs uri)
          (doc.setSources []) s with
      | mk r rest =>
        cases rest with
        | mk s2 tr2 =>
          have hb := hstep s
          rw [hab] at hb
          simp only at hb
          obtain ⟨s3, tr3, hl1, hl2, _, _, _, _⟩ :=
            addLocation_effects (Dataset.mk i tid doc srcs uri) s2
          cases r with
          | error e =>
            have hfinal : (DatasetResource.add_core (Dataset.mk i tid doc srcs uri)
                true s).2.2.1 = s2 := by
              simp [DatasetResource.add_core, Dataset.metadata_doc, Dataset.sources, hab]
            rw [hfinal]
            exact hb
          | ok u =>
            have hfinal : (DatasetResource.add_core (Dataset.mk i tid doc srcs uri)
                true s).2.2.1 = s3 := by
              simp [DatasetResource.add_core, Dataset.metadata_doc, Dataset.sources, hab,
                    hl1]
            rw [hfinal, countRows_congr j hl2]
            exact hb
    | false =>
      cases has : DatasetResource.addSources srcs s with
      | mk r0 rest0 =>
        cases rest0 with
        | mk s1 tr1 =>
          have hsrc := addSources_count srcs s j
          rw [has] at hsrc
          simp only at hsrc
          cases r0 with
          | error e =>
            have hfinal : (DatasetResource.add_core (Dataset.mk i tid doc srcs uri)
                false s).2.2.1 = s1 := by
              simp [DatasetResource.add_core, has]
            rw [hfinal]
            exact hsrc
          | ok u0 =>
            cases hab : DatasetResource.addBody (Dataset.mk i tid doc srcs uri)
                (doc.setSources []) s1 with
            | mk r rest =>
              cases rest with
              | mk s2 tr2 =>
                have hb := hstep s1
                rw [hab] at hb
                simp only at hb
                obtain ⟨s3, tr3, hl1, hl2, _, _, _, _⟩ :=
                  addLocation_effects (Dataset.mk i tid doc srcs uri) s2
                cases r with
                | error e =>
                  have hfinal : (DatasetResource.add_core (Dataset.mk i tid doc srcs uri)
                      false s).2.2.1 = s2 := by
                    simp [DatasetResource.add_core, Dataset.metadata_doc, Dataset.sources,
                          has, hab]
                  rw [hfinal]
                  omega
                | ok u =>
                  have hfinal : (DatasetResource.add_core (Dataset.mk i tid doc srcs uri)
                      false s).2.2.1 = s3 := by
                    simp [DatasetResource.add_core, Dataset.metadata_doc, Dataset.sources,
                          has, hab, hl1]
                  rw [hfinal, countRows_congr j hl2]
                  omega

theorem addSources_count : ∀ (l : List (String × Dataset)) (s : DbState) (j : DsId),
    (DatasetResource.addSources l s).2.1.countRows j ≤ max (s.countRows j) 1
  | [], s, j => by
    simp only [DatasetResource.addSources]
    exact Nat.le_max_left _ _
  | (c, src) :: t, s, j => by
    cases hac : DatasetResource.add_core src false s with
    | mk r rest =>
      cases rest with
      | mk doc1 rest1 =>
        cases rest1 with
        | mk s1 tr1 =>
          have h1 := add_core_count src false s j
          rw [hac] at h1
          simp only at h1
          cases r with
          | error e =>
            have hfinal : (DatasetResource.addSources ((c, src) :: t) s).2.1 = s1 := by
              simp [DatasetResource.addSources, hac]
            rw [hfinal]
            exact h1
          | ok u =>
            cases hat : DatasetResource.addSources t s1 with
            | mk r2 rest2 =>
              cases rest2 with
              | mk s2 tr2 =>
                have h2 := addSources_count t s1 j
                rw [hat] at h2
                simp only at h2
                have hfinal : (DatasetResource.addSources ((c, src) :: t) s).2.1 = s2 := by
                  simp [DatasetResource.addSources, hac, hat]
                rw [hfinal]
                omega

end

theorem add_components {d : Dataset} {skip : Bool} {s : DbState} {r : Except Err Dataset}
    {doc : MDoc} {s' : DbState} {tr : List Event}
    (h : DatasetResource.add_core d skip s = (r, doc, s', tr)) :
    DatasetResource.add d skip s = (r, s', tr) := by
  simp [DatasetResource.add, h]

theorem add_settled {d : Dataset} {s : DbState} {a : Dataset} {s' : DbState}
    {tr : List Event}
    (hty : typesOkB d s = true)
    (h : DatasetResource.add d false s = (Except.ok a, s', tr)) :
    settledB d s' = true := by
  cases hcore : DatasetResource.add_core d false s with
  | mk r rest =>
    cases rest with
    | mk doc rest1 =>
      cases rest1 with
      | mk s1 tr1 =>
        have hadd := add_components hcore
        rw [hadd] at h
        injection h with h1 h2
        injection h2 with h2 h3
        subst h2
        have := add_core_settles d s a hty (by rw [hcore, h1])
        rw [hcore] at this
        exact this

theorem settled_re_add {d : Dataset} {s : DbState} (hsettled : settledB d s = true) :
    ∃ s' tr, DatasetResource.add d false s = (Except.ok d, s', tr) ∧
      s'.datasets = s.datasets := by
  obtain ⟨s', tr, hcore, hd, _, _⟩ := add_core_idem d s hsettled
  exact ⟨s', tr, add_components hcore, hd⟩

theorem settled_conflict {i : DsId} {tid : Nat} {doc : MDoc}
    {srcs : List (String × Dataset)} {uri : Option String} {s : DbState}
    (hsettled : settledB (Dataset.mk i tid doc srcs uri) s = true)
    (d2 : Dataset) (hid : d2.id = i) (hsrc2 : d2.sources = [])
    (hdiff : ((doc.setSources []) == jsonify_document (d2.metadata_doc.setSources []))
      = false) :
    ∃ s' tr, DatasetResource.add d2 false s =
      (Except.error (Err.conflict ("Dataset " ++ i)), s', tr) := by
  obtain ⟨h1, h2⟩ := (Bool.and_eq_true _ _).mp (by
    unfold settledB at hsettled
    exact hsettled)
  cases hl : s.lookupDs i with
  | none => rw [hl] at h1; cases h1
  | some row =>
    rw [hl] at h1
    have h1' : (row.metadata.beq (doc.setSources []) &&
        s.typeResolvable row.dataset_type_ref) = true := h1
    obtain ⟨hbeq, hres⟩ := (Bool.and_eq_true _ _).mp h1'
    have hroweq : row.metadata = doc.setSources [] := (MDoc.beq_iff _ _).mp hbeq
    cases d2 with
    | mk i2 tid2 doc2 srcs2 uri2 =>
      have hid' : i2 = i := hid
      have hsrc2' : srcs2 = [] := hsrc2
      subst hid'
      subst hsrc2'
      have hl2 : s.lookupDs (Dataset.mk i2 tid2 doc2 [] uri2).id = some row := hl
      obtain ⟨s2, tr2, hab, hd2, hdt2, hmt2, ha2, _⟩ :=
        addBody_present_check (Dataset.mk i2 tid2 doc2 [] uri2) (doc2.setSources []) s row
          hl2 hres
      have hcond : (row.metadata == jsonify_document (doc2.setSources [])) = false := by
        rw [hroweq]
        exact hdiff
      rw [hcond] at hab
      simp only [Bool.false_eq_true, if_false] at hab
      refine ⟨s2, [] ++ (tr2 ++ []) , ?_⟩
      have hcore : DatasetResource.add_core (Dataset.mk i2 tid2 doc2 [] uri2) false s =
          (Except.error (Err.conflict ("Dataset " ++ i2)),
           (doc2.setSources []).setSources doc2.lineage_sources, s2, [] ++ tr2) := by
        simp [DatasetResource.add_core, DatasetResource.addSources, Dataset.metadata_doc,
              Dataset.sources, hab, Dataset.id]
      have := add_components hcore
      simpa using this

/-! ## Claim theorems. -/

/-- C1: after a successful `add(d)` from a state with no row for `d.id` (and
resolvable product references), (i) exactly one record for `d.id` is stored;
(ii) a second `add` of the same dataset with the identical metadata document
succeeds as a no-op — no error, the dataset table unchanged, still exactly
one record; (iii) a second `add` with the same id but a different metadata
document fails with a `ConflictError` identifying the dataset id, where the
comparison is made against the lineage-stripped, then normalized
(`jsonify_document`) incoming document. -/
theorem C1_add_idempotence_and_conflict
    (d : Dataset) (s0 : DbState) (a : Dataset) (s1 : DbState) (tr1 : List Event)
    (hfresh : s0.lookupDs d.id = none)
    (hty : typesOkB d s0 = true)
    (hrun1 : DatasetResource.add d false s0 = (Except.ok a, s1, tr1)) :
    s1.countRows d.id = 1 ∧
    (∃ s2 tr2, DatasetResource.add d false s1 = (Except.ok d, s2, tr2) ∧
      s2.datasets = s1.datasets ∧ s2.countRows d.id = 1) ∧
    (∀ d2 : Dataset, d2.id = d.id → d2.sources = [] →
      ((d.metadata_doc.setSources []) ==
        jsonify_document (d2.metadata_doc.setSources [])) = false →
      ∃ s3 tr3, DatasetResource.add d2 false s1 =
        (Except.error (Err.conflict ("Dataset " ++ d.id)), s3, tr3)) := by
  have hsettled : settledB d s1 = true := add_settled hty hrun1
  have hcount : s1.countRows d.id = 1 := by
    have hupper : s1.countRows d.id ≤ max (s0.countRows d.id) 1 := by
      cases hcore : DatasetResource.add_core d false s0 with
      | mk r rest =>
        cases rest with
        | mk doc rest1 =>
          cases rest1 with
          | mk s1' tr1' =>
            have hadd := add_components hcore
            rw [hadd] at hrun1
            injection hrun1 with h1 h2
            injection h2 with h2 h3
            subst h2
            have := add_core_count d false s0 d.id
            rw [hcore] at this
            exact this
    have hzero := countRows_zero_of_none hfresh
    rw [hzero] at hupper
    have hlower : 1 ≤ s1.countRows d.id := by
      cases d with
      | mk i tid doc srcs uri =>
        obtain ⟨h1, h2⟩ := (Bool.and_eq_true _ _).mp (by
          unfold settledB at hsettled
          exact hsettled)
        cases hl : s1.lookupDs i with
        | none => rw [hl] at h1; cases h1
        | some row => exact countRows_pos_of_some hl
    omega
  refine ⟨hcount, ?_, ?_⟩
  · obtain ⟨s2, tr2, hre, hd⟩ := settled_re_add hsettled
    exact ⟨s2, tr2, hre, hd, by rw [countRows_congr d.id hd]; exact hcount⟩
  · intro d2 hid hsrc2 hdiff
    cases d with
    | mk i tid doc srcs uri =>
      exact settled_conflict hsettled d2 hid hsrc2 hdiff

/-- Witness for C1: the fixture run — first `add` succeeds from the empty
catalog; re-adding the identical dataset is a no-op keeping one record;
re-adding the same id with different metadata raises the conflict naming the
id. -/
theorem C1_witness :
    fixS1.countRows "d1" = 1 ∧
    (∃ s2 tr2, DatasetResource.add fixD false fixS1 = (Except.ok fixD, s2, tr2) ∧
      s2.datasets = fixS1.datasets ∧ s2.countRows "d1" = 1) ∧
    (∃ s3 tr3, DatasetResource.add fixD2 false fixS1 =
      (Except.error (Err.conflict ("Dataset " ++ "d1")), s3, tr3)) := by
  have hrun1 : DatasetResource.add fixD false fixS0 =
      (Except.ok fixD, fixS1,
       [Event.insertDataset "s1", Event.insertDataset "d1",
        Event.insertSource "raw" "d1" "s1", Event.ensureLocation "d1"]) := rfl
  have hmain := C1_add_idempotence_and_conflict fixD fixS0 fixD fixS1 _
    (by rfl) (by rfl) hrun1
  exact ⟨hmain.1, hmain.2.1,
    hmain.2.2 fixD2 (by rfl) (by rfl) (by rfl)⟩

/-- C6: `add` returns the exact dataset object the caller submitted (the
`Except.ok` payload is the input dataset itself), and on every exit path —
success or failure, including a raised `ConflictError` — the caller's
in-memory metadata document (the second component of `add_core`) equals the
original document: the lineage stripping before insertion is restored and
never observable afterwards. -/
theorem C6_returns_input_and_restores_doc (d : Dataset) (skip : Bool) (s : DbState) :
    (DatasetResource.add_core d skip s).2.1 = d.metadata_doc ∧
    (∀ d' : Dataset, (DatasetResource.add_core d skip s).1 = Except.ok d' → d' = d) := by
  cases d with
  | mk i tid doc srcs uri =>
    cases skip with
    | true =>
      cases hab : DatasetResource.addBody (Dataset.mk i tid doc srcs uri)
          (doc.setSources []) s with
      | mk r rest =>
        cases rest with
        | mk s2 tr2 =>
          cases r with
          | error e =>
            constructor
            · simp [DatasetResource.add_core, Dataset.metadata_doc, Dataset.sources, hab,
                    MDoc.setSources_setSources, MDoc.setSources_lineage]
            · intro d' h
              rw [show (DatasetResource.add_core (Dataset.mk i tid doc srcs uri) true
                  s).1 = Except.error e from by
                simp [DatasetResource.add_core, Dataset.metadata_doc, Dataset.sources,
                      hab]] at h
              cases h
          | ok u =>
            obtain ⟨s3, tr3, hl1, _, _, _, _, _⟩ :=
              addLocation_effects (Dataset.mk i tid doc srcs uri) s2
            constructor
            · simp [DatasetResource.add_core, Dataset.metadata_doc, Dataset.sources, hab,
                    hl1, MDoc.setSources_setSources, MDoc.setSources_lineage]
            · intro d' h
              rw [show (DatasetResource.add_core (Dataset.mk i tid doc srcs uri) true
                  s).1 = Except.ok (Dataset.mk i tid doc srcs uri) from by
                simp [DatasetResource.add_core, Dataset.metadata_doc, Dataset.sources,
                      hab, hl1]] at h
              injection h with h1
              exact h1.symm
    | false =>
      cases has : DatasetResource.addSources srcs s with
      | mk r0 rest0 =>
        cases rest0 with
        | mk s1 tr1 =>
          cases r0 with
          | error e =>
            constructor
            · simp [DatasetResource.add_core, Dataset.metadata_doc, Dataset.sources, has]
            · intro d' h
              rw [show (DatasetResource.add_core (Dataset.mk i tid doc srcs uri) false
                  s).1 = Except.error e from by
                simp [DatasetResource.add_core, has]] at h
              cases h
          | ok u0 =>
            cases hab : DatasetResource.addBody (Dataset.mk i tid doc srcs uri)
                (doc.setSources []) s1 with
            | mk r rest =>
              cases rest with
              | mk s2 tr2 =>
                cases r with
                | error e =>
                  constructor
                  · simp [DatasetResource.add_core, Dataset.metadata_doc, Dataset.sources,
                          has, hab, MDoc.setSources_setSources, MDoc.setSources_lineage]
                  · intro d' h
                    rw [show (DatasetResource.add_core (Dataset.mk i tid doc srcs uri)
                        false s).1 = Except.error e from by
                      simp [DatasetResource.add_core, Dataset.metadata_doc,
                            Dataset.sources, has, hab]] at h
                    cases h
                | ok u =>
                  obtain ⟨s3, tr3, hl1, _, _, _, _, _⟩ :=
                    addLocation_effects (Dataset.mk i tid doc srcs uri) s2
                  constructor
                  · simp [DatasetResource.add_core, Dataset.metadata_doc, Dataset.sources,
                          has, hab, hl1, MDoc.setSources_setSources,
                          MDoc.setSources_lineage]
                  · intro d' h
                    rw [show (DatasetResource.add_core (Dataset.mk i tid doc srcs uri)
                        false s).1 = Except.ok (Dataset.mk i tid doc srcs uri) from by
                      simp [DatasetResource.add_core, Dataset.metadata_doc,
                            Dataset.sources, has, hab, hl1]] at h
                    injection h with h1
                    exact h1.symm

/-- Witness for C6: on the fixture success run and on the fixture conflict
(error) run the in-memory document is the original, and the returned dataset
is the very input. -/
theorem C6_witness :
    (DatasetResource.add_core fixD false fixS0).2.1 = fixD.metadata_doc ∧
    (DatasetResource.add_core fixD2 false fixS1).2.1 = fixD2.metadata_doc ∧
    fixD = fixD :=
  ⟨(C6_returns_input_and_restores_doc fixD false fixS0).1,
   (C6_returns_input_and_restores_doc fixD2 false fixS1).1,
   (C6_returns_input_and_restores_doc fixD false fixS0).2 fixD (by rfl)⟩

theorem archiveAll_effect : ∀ (l : List Dataset) (s : DbState),
    ∃ tr, DatasetResource.archiveAll l s =
      (Except.ok (), { s with archived := s.archived ++ l.map (fun u => u.id) }, tr)
  | [], s => ⟨[], by simp [DatasetResource.archiveAll, M.pure]⟩
  | unit :: rest, s => by
    obtain ⟨tr, ih⟩ := archiveAll_effect rest
      { s with archived := s.archived ++ [unit.id] }
    refine ⟨[Event.archive unit.id] ++ tr, ?_⟩
    simp only [DatasetResource.archiveAll, M.bind, Db.archive_storage_unit, ih]
    simp [List.append_assoc]

theorem addAll_archived : ∀ (l : List Dataset) (s : DbState),
    (DatasetResource.addAll l s).2.1.archived = s.archived
  | [], s => by simp [DatasetResource.addAll, M.pure]
  | unit :: rest, s => by
    cases hac : DatasetResource.add_core unit false s with
    | mk r rest1 =>
      cases rest1 with
      | mk doc1 rest2 =>
        cases rest2 with
        | mk s1 tr1 =>
          have hpres := add_core_preserves unit false s
          obtain ⟨ext, _, _, _, ha⟩ := hpres
          rw [hac] at ha
          simp only at ha
          have hadd := add_components hac
          cases r with
          | error e =>
            rw [show (DatasetResource.addAll (unit :: rest) s).2.1 = s1 from by
              simp [DatasetResource.addAll, M.bind, hadd]]
            exact ha
          | ok a =>
            have ih := addAll_archived rest s1
            cases hat : DatasetResource.addAll rest s1 with
            | mk r2 rest2 =>
              cases rest2 with
              | mk s2 tr2 =>
                rw [hat] at ih
                simp only at ih
                rw [show (DatasetResource.addAll (unit :: rest) s).2.1 = s2 from by
                  simp [DatasetResource.addAll, M.bind, hadd, hat]]
                rw [ih]
                exact ha

/-- C4: `replace(old, new)` runs the archival of every old dataset and the
standard `add` of every new dataset inside one transaction: if any part
fails, the post-state is exactly the pre-state (the archival is not
persisted); if it succeeds, every old dataset carries the archive marker. -/
theorem C4_replace_transactional (olds news : List Dataset) (s : DbState) :
    (∀ e : Err, (DatasetResource.replace olds news s).1 = Except.error e →
      (DatasetResource.replace olds news s).2.1 = s) ∧
    ((DatasetResource.replace olds news s).1 = Except.ok () →
      ∀ u ∈ olds, u.id ∈ (DatasetResource.replace olds news s).2.1.archived) := by
  obtain ⟨trA, hA⟩ := archiveAll_effect olds s
  set sA : DbState := { s with archived := s.archived ++ olds.map (fun u => u.id) }
    with hsA
  cases hat : DatasetResource.addAll news sA with
  | mk r2 rest2 =>
    cases rest2 with
    | mk s2 tr2 =>
      have harch := addAll_archived news sA
      rw [hat] at harch
      simp only at harch
      have hbody : (M.bind (DatasetResource.archiveAll olds)
          (fun _ => DatasetResource.addAll news)) s = (r2, s2, trA ++ tr2) := by
        simp [M.bind, hA, hat]
      cases r2 with
      | error e =>
        have hrep : DatasetResource.replace olds news s =
            (Except.error e, s, trA ++ tr2) := by
          simp [DatasetResource.replace, M.begin, hbody]
        constructor
        · intro e2 h2
          rw [hrep]
        · intro h2
          rw [hrep] at h2
          cases h2
      | ok u2 =>
        have hrep : DatasetResource.replace olds news s =
            (Except.ok (), s2, trA ++ tr2) := by
          simp [DatasetResource.replace, M.begin, hbody]
        constructor
        · intro e2 h2
          rw [hrep] at h2
          cases h2
        · intro h2 u hu
          rw [hrep]
          show u.id ∈ s2.archived
          rw [harch]
          simp only [List.mem_append]
          exact Or.inr (List.mem_map.mpr ⟨u, hu, rfl⟩)

/-- Witness for C4: replacing `fixOld` by the conflicting `fixD2` fails, and
the rollback leaves the store exactly as before — `fixOld` is not archived. -/
theorem C4_witness :
    (DatasetResource.replace [fixOld] [fixD2] fixS1).2.1 = fixS1 :=
  (C4_replace_transactional [fixOld] [fixD2] fixS1).1
    (Err.conflict ("Dataset " ++ "d1")) (by rfl)

theorem do_search_snd {query : Query} {rf wsi : Bool} {s : DbState} {rows : List DsRow}
    {q' : Query}
    (h : (DatasetResource.do_search query rf wsi s).1 = Except.ok (rows, q')) :
    q' = query := by
  simp only [DatasetResource.do_search, Query.copy, M.bind, M.pure] at h
  cases hA : DatasetResource.get_dataset_types query s with
  | mk rA restA =>
    cases restA with
    | mk sA trA =>
      rw [hA] at h
      cases rA with
      | error e => simp at h
      | ok dts =>
        simp only at h
        cases hB : DatasetResource.searchLoop rf wsi dts
            (if query.hasKey "product" = true then query.del "product" else query) sA with
        | mk rB restB =>
          cases restB with
          | mk sB trB =>
            rw [hB] at h
            cases rB with
            | error e => simp at h
            | ok pr =>
              simp only at h
              injection h with h1
              injection h1 with h2 h3
              exact h3.symm

theorem do_count_snd {query : Query} {s : DbState} {n : Nat} {q' : Query}
    (h : (DatasetResource.do_count query s).1 = Except.ok (n, q')) :
    q' = query := by
  simp only [DatasetResource.do_count, Query.copy, M.bind, M.pure] at h
  cases hA : DatasetResource.get_dataset_types query s with
  | mk rA restA =>
    cases restA with
    | mk sA trA =>
      rw [hA] at h
      cases rA with
      | error e => simp at h
      | ok dts =>
        simp only at h
        cases hB : DatasetResource.countLoop dts
            (if query.hasKey "product" = true then query.del "product" else query) sA with
        | mk rB restB =>
          cases restB with
          | mk sB trB =>
            rw [hB] at h
            cases rB with
            | error e => simp at h
            | ok pr =>
              simp only at h
              injection h with h1
              injection h1 with h2 h3
              exact h3.symm

/-- C10: `search`, `count`, `search_summaries` and `search_eager` never
mutate the caller's query mapping: each works on `q = dict(query)`, a copy,
before deleting the `product` key and pinning `dataset_type_id`, so the
mapping observable by the caller after the call (the second component of the
result) is always the original query. -/
theorem C10_query_not_mutated (query : Query) (s : DbState) :
    (∀ ds q', (DatasetResource.search query s).1 = Except.ok (ds, q') → q' = query) ∧
    (∀ n q', (DatasetResource.count query s).1 = Except.ok (n, q') → q' = query) ∧
    (∀ fs q', (DatasetResource.search_summaries query s).1 = Except.ok (fs, q') →
      q' = query) ∧
    (∀ ds q', (DatasetResource.search_eager query s).1 = Except.ok (ds, q') →
      q' = query) := by
  have hsearch : ∀ ds q', (DatasetResource.search query s).1 = Except.ok (ds, q') →
      q' = query := by
    intro ds q' h
    simp only [DatasetResource.search, M.bind, M.pure] at h
    cases hA : DatasetResource.do_search query false false s with
    | mk rA restA =>
      cases restA with
      | mk sA trA =>
        rw [hA] at h
        cases rA with
        | error e => simp at h
        | ok pr =>
          simp only at h
          cases hB : DatasetResource.make_many pr.fst sA with
          | mk rB restB =>
            cases restB with
            | mk sB trB =>
              rw [hB] at h
              cases rB with
              | error e => simp at h
              | ok mds =>
                simp only at h
                injection h with h1
                injection h1 with h2 h3
                subst h3
                exact do_search_snd (by rw [hA])
  refine ⟨hsearch, ?_, ?_, ?_⟩
  · intro n q' h
    exact do_count_snd (by
      simpa only [DatasetResource.count] using h)
  · intro fs q' h
    simp only [DatasetResource.search_summaries, M.bind, M.pure] at h
    cases hA : DatasetResource.do_search query true false s with
    | mk rA restA =>
      cases restA with
      | mk sA trA =>
        rw [hA] at h
        cases rA with
        | error e => simp at h
        | ok pr =>
          simp only at h
          injection h with h1
          injection h1 with h2 h3
          subst h3
          exact do_search_snd (by rw [hA])
  · intro ds q' h
    exact hsearch ds q' (by
      simpa only [DatasetResource.search_eager] using h)

/-- Witness for C10: on the fixture store, both `search` and `count` return
the caller's query mapping unchanged. -/
theorem C10_witness :
    ∃ ds n, (DatasetResource.search fixTimeQuery fixSearchS).1 =
        Except.ok (ds, fixTimeQuery) ∧
      (DatasetResource.count fixTimeQuery fixSearchS).1 = Except.ok (n, fixTimeQuery) := by
  have h1 : (DatasetResource.search fixTimeQuery fixSearchS).1 =
      Except.ok ([Dataset.mk "r1" 7 (MDoc.mk "R1" []) [] none],
        [("time", QVal.range 0 10)]) := rfl
  have h2 : (DatasetResource.count fixTimeQuery fixSearchS).1 =
      Except.ok (1, [("time", QVal.range 0 10)]) := rfl
  have hq1 := (C10_query_not_mutated fixTimeQuery fixSearchS).1 _ _ h1
  have hq2 := (C10_query_not_mutated fixTimeQuery fixSearchS).2.1 _ _ h2
  rw [hq1] at h1
  rw [hq2] at h2
  exact ⟨_, _, h1, h2⟩

/-- C3 (code evaluated at the failing input): for a query on a field
(`platform`) that no registered product declares and with no `product` key,
`count` returns 0 and `search` returns the empty list — no error of any kind
is raised and no store search/count round-trip is issued (the trace is
empty).  The source's emptiness check (`if not types: raise ValueError`)
tests the generator object returned by `get_with_fields`, which is always
truthy in Python, so the branch claimed by the spec is unreachable. -/
theorem C3_no_matching_type_silent :
    DatasetResource.count fixNoTypeQuery fixSearchS =
      (Except.ok (0, fixNoTypeQuery), fixSearchS, []) ∧
    DatasetResource.search fixNoTypeQuery fixSearchS =
      (Except.ok ([], fixNoTypeQuery), fixSearchS, []) :=
  ⟨rfl, rfl⟩

/-- Counterexample to C2 as stated: in a batch whose only row names the
absent source id `b` (alongside a null source id), reconstruction does not
skip the pair and complete — it fails with `KeyError "b"`, exactly as
Python's `datasets[str(source)]` lookup does. -/
theorem C2_counterexample :
    resolveSources fixBatchTable = Except.error (Err.keyError "b") := rfl

theorem resolvePairs_ok_iff (table : List (DsId × Dataset × SourceRow)) :
    ∀ (srcs : List (Option DsId)) (classes : List String),
    (∃ l, resolvePairs table srcs classes = Except.ok l) ↔
    ((srcs.zip classes).all (fun p =>
      match p.fst with
      | none => true
      | some sid => (tableLookup table sid).isSome)) = true
  | [], classes => by
    simp [resolvePairs]
  | some sid :: t1, [] => by
    simp [resolvePairs]
  | none :: t1, [] => by
    simp [resolvePairs]
  | some sid :: t1, c :: t2 => by
    cases hlk : tableLookup table sid with
    | none =>
      constructor
      · rintro ⟨l, hl⟩
        rw [show resolvePairs table (some sid :: t1) (c :: t2) =
            Except.error (Err.keyError sid) from by
          simp [resolvePairs, hlk]] at hl
        cases hl
      · intro hall
        simp only [List.zip_cons_cons, List.all_cons, hlk] at hall
        simp at hall
    | some entry =>
      have ih := resolvePairs_ok_iff table t1 t2
      constructor
      · rintro ⟨l, hl⟩
        cases hr : resolvePairs table t1 t2 with
        | ok rest =>
          simp only [List.zip_cons_cons, List.all_cons]
          refine (Bool.and_eq_true _ _).mpr ⟨by simp [hlk], ?_⟩
          exact ih.mp ⟨rest, hr⟩
        | error e =>
          rw [show resolvePairs table (some sid :: t1) (c :: t2) = Except.error e from by
            simp [resolvePairs, hlk, hr]] at hl
          cases hl
      · intro hall
        simp only [List.zip_cons_cons, List.all_cons] at hall
        obtain ⟨h1, h2⟩ := (Bool.and_eq_true _ _).mp hall
        obtain ⟨rest, hr⟩ := ih.mpr h2
        exact ⟨(c, entry.fst) :: rest, by simp [resolvePairs, hlk, hr]⟩
  | none :: t1, c :: t2 => by
    have ih := resolvePairs_ok_iff table t1 t2
    constructor
    · rintro ⟨l, hl⟩
      rw [show resolvePairs table (none :: t1) (c :: t2) = resolvePairs table t1 t2 from by
        simp [resolvePairs]] at hl
      simp only [List.zip_cons_cons, List.all_cons]
      exact (Bool.and_eq_true _ _).mpr ⟨rfl, ih.mp ⟨l, hl⟩⟩
    · intro hall
      simp only [List.zip_cons_cons, List.all_cons] at hall
      obtain ⟨h1, h2⟩ := (Bool.and_eq_true _ _).mp hall
      obtain ⟨l, hl⟩ := ih.mpr h2
      exact ⟨l, by simp [resolvePairs, hl]⟩

theorem resolveSourcesAux_ok_iff (table : List (DsId × Dataset × SourceRow)) :
    ∀ l : List (DsId × Dataset × SourceRow),
    (∃ res, resolveSourcesAux table l = Except.ok res) ↔
    (l.all (fun e2 =>
      (e2.snd.snd.sources.zip e2.snd.snd.classes).all (fun p =>
        match p.fst with
        | none => true
        | some sid => (tableLookup table sid).isSome))) = true
  | [] => by
    simp [resolveSourcesAux]
  | e2 :: t => by
    have ihp := resolvePairs_ok_iff table e2.snd.snd.sources e2.snd.snd.classes
    have iht := resolveSourcesAux_ok_iff table t
    cases hp : resolvePairs table e2.snd.snd.sources e2.snd.snd.classes with
    | error err =>
      have hres : resolveEntry table e2 = Except.error err := by
        simp [resolveEntry, hp]
      constructor
      · rintro ⟨res, hr⟩
        rw [show resolveSourcesAux table (e2 :: t) = Except.error err from by
          simp [resolveSourcesAux, hres]] at hr
        cases hr
      · intro hall
        exfalso
        simp only [List.all_cons] at hall
        obtain ⟨h1, h2⟩ := (Bool.and_eq_true _ _).mp hall
        obtain ⟨l, hl⟩ := ihp.mpr h1
        rw [hp] at hl
        cases hl
    | ok pairs =>
      have h1 : (e2.snd.snd.sources.zip e2.snd.snd.classes).all (fun p =>
          match p.fst with
          | none => true
          | some sid => (tableLookup table sid).isSome) = true :=
        ihp.mp ⟨pairs, hp⟩
      have hres : resolveEntry table e2 = Except.ok (e2.fst,
          Dataset.mk e2.snd.fst.id e2.snd.fst.type_id
            (e2.snd.fst.metadata_doc.setSources
              (pairs.map (fun p => (p.fst, p.snd.metadata_doc))))
            pairs e2.snd.fst.local_uri) := by
        simp [resolveEntry, hp]
      cases ht : resolveSourcesAux table t with
      | ok rest =>
        constructor
        · intro _
          simp only [List.all_cons]
          exact (Bool.and_eq_true _ _).mpr ⟨h1, iht.mp ⟨rest, ht⟩⟩
        · intro _
          exact ⟨(e2.fst,
            Dataset.mk e2.snd.fst.id e2.snd.fst.type_id
              (e2.snd.fst.metadata_doc.setSources
                (pairs.map (fun p => (p.fst, p.snd.metadata_doc))))
              pairs e2.snd.fst.local_uri) :: rest,
            by simp [resolveSourcesAux, hres, ht]⟩
      | error err =>
        constructor
        · rintro ⟨res, hr⟩
          rw [show resolveSourcesAux table (e2 :: t) = Except.error err from by
            simp [resolveSourcesAux, hres, ht]] at hr
          cases hr
        · intro hall
          exfalso
          simp only [List.all_cons] at hall
          obtain ⟨hh1, hh2⟩ := (Bool.and_eq_true _ _).mp hall
          obtain ⟨res, hr⟩ := iht.mpr hh2
          rw [ht] at hr
          cases hr

/-- C2 amended: in `get(id, includeSources=true)`'s reconstruction, a null
source id in a row's parallel array is skipped, but a non-null source id that
is absent from the batch's lookup table is *not* skipped — the lookup raises
`KeyError` and reconstruction fails.  Equivalently: the per-batch resolution
succeeds exactly when every non-null source id of every row resolves in the
table. -/
theorem C2_missing_source_is_error (table : List (DsId × Dataset × SourceRow)) :
    (∃ res, resolveSources table = Except.ok res) ↔ batchClosed table = true := by
  unfold resolveSources batchClosed
  exact resolveSourcesAux_ok_iff table table

/-- Witness for C2: the truncated fixture batch is not closed, and by the
amended theorem its reconstruction cannot succeed. -/
theorem C2_witness : ¬ ∃ res, resolveSources fixBatchTable = Except.ok res := by
  intro h
  have hc := (C2_missing_source_is_error fixBatchTable).mp h
  rw [show batchClosed fixBatchTable = false from rfl] at hc
  cases hc

theorem find?_append_none_generic {α : Type} {l1 l2 : List α} {p : α → Bool}
    (h : l1.find? p = none) : (l1 ++ l2).find? p = l2.find? p := by
  rw [List.find?_append, h]
  rfl

theorem mt_add_existing (defn : MTDef) (lock : Bool) (s : DbState) (ex : MTRecord)
    (hfind : s.metadata_types.find? (fun r => r.name == defn.name) = some ex) :
    (ex.definition = defn →
      MetadataTypeResource.add defn lock s =
        (Except.ok (some ⟨ex.id, ex.name, Db.get_dataset_fields ex.definition⟩), s, [])) ∧
    (ex.definition ≠ defn →
      MetadataTypeResource.add defn lock s =
        (Except.error (Err.conflict ("Metadata Type " ++ defn.name)), s, [])) := by
  constructor
  · intro heq
    have hbeq : (ex.definition == defn) = true := by
      rw [heq]
      simp
    simp [MetadataTypeResource.add, M.bind, Db.get_metadata_type_by_name, hfind,
          check_doc_unchanged, hbeq, heq, M.pure, MetadataTypeResource.get_by_name,
          MetadataTypeResource.make]
  · intro hne
    have hbeq : (ex.definition == defn) = false := by
      simp [hne]
    simp [MetadataTypeResource.add, M.bind, Db.get_metadata_type_by_name, hfind,
          check_doc_unchanged, hbeq, hne, M.raise]

theorem mt_add_absent (defn : MTDef) (lock : Bool) (s : DbState)
    (hfind : s.metadata_types.find? (fun r => r.name == defn.name) = none) :
    ∃ fid,
      (MetadataTypeResource.add defn lock s).2.1.metadata_types =
        s.metadata_types ++ [⟨fid, defn.name, defn⟩] ∧
      (MetadataTypeResource.add defn lock s).1 =
        Except.ok (some ⟨fid, defn.name, Db.get_dataset_fields defn⟩) ∧
      (MetadataTypeResource.add defn lock s).1 =
        (MetadataTypeResource.get_by_name defn.name
          (MetadataTypeResource.add defn lock s).2.1).1 := by
  refine ⟨s.metadata_types.foldl (fun m r => max m r.id) 0 + 1, ?_, ?_, ?_⟩
  · simp [MetadataTypeResource.add, M.bind, Db.get_metadata_type_by_name, hfind,
          Db.add_metadata_type, M.pure, MetadataTypeResource.get_by_name,
          MetadataTypeResource.make, find?_append_none_generic hfind]
  · simp [MetadataTypeResource.add, M.bind, Db.get_metadata_type_by_name, hfind,
          Db.add_metadata_type, M.pure, MetadataTypeResource.get_by_name,
          MetadataTypeResource.make, find?_append_none_generic hfind]
  · simp [MetadataTypeResource.add, M.bind, Db.get_metadata_type_by_name, hfind,
          Db.add_metadata_type, M.pure, MetadataTypeResource.get_by_name,
          MetadataTypeResource.make, find?_append_none_generic hfind]

theorem dt_add_existing (type_ : DatasetTypeIn) (s : DbState) (ex : DTRecord)
    (hfind : s.dataset_types.find? (fun r => r.name == type_.name) = some ex)
    (hres : (s.metadata_types.find? (fun r => r.id == ex.metadata_type_ref)).isSome
      = true) :
    (ex.definition = type_.definition →
      ∃ mt, DatasetTypeResource.add type_ s =
        (Except.ok (some ⟨ex.id, ex.definition.name, mt, ex.definition⟩), s, [])) ∧
    (ex.definition ≠ type_.definition →
      DatasetTypeResource.add type_ s =
        (Except.error (Err.conflict ("Dataset type " ++ type_.name)), s, [])) := by
  constructor
  · intro heq
    cases hmrow : s.metadata_types.find? (fun r => r.id == ex.metadata_type_ref) with
    | none => rw [hmrow] at hres; simp at hres
    | some mtrow =>
      refine ⟨⟨mtrow.id, mtrow.name, Db.get_dataset_fields mtrow.definition⟩, ?_⟩
      simp [DatasetTypeResource.add, M.bind, Db.get_dataset_type_by_name, hfind,
            check_doc_unchanged, heq, M.pure, DatasetTypeResource.get_by_name,
            DatasetTypeResource.make, MetadataTypeResource.get, Db.get_metadata_type,
            hmrow, MetadataTypeResource.make]
  · intro hne
    simp [DatasetTypeResource.add, M.bind, Db.get_dataset_type_by_name, hfind,
          check_doc_unchanged, hne, M.raise]

theorem dt_add_absent (type_ : DatasetTypeIn) (s : DbState)
    (hfind : s.dataset_types.find? (fun r => r.name == type_.name) = none)
    (hres : (s.metadata_types.find? (fun r => r.id == type_.metadata_type.id)).isSome
      = true) :
    ∃ fid mt,
      (DatasetTypeResource.add type_ s).2.1.dataset_types =
        s.dataset_types ++ [⟨fid, type_.name, type_.metadata_type.id, type_.definition⟩] ∧
      (DatasetTypeResource.add type_ s).1 =
        Except.ok (some ⟨fid, type_.definition.name, mt, type_.definition⟩) ∧
      (DatasetTypeResource.add type_ s).1 =
        (DatasetTypeResource.get_by_name type_.name
          (DatasetTypeResource.add type_ s).2.1).1 := by
  cases hmrow : s.metadata_types.find? (fun r => r.id == type_.metadata_type.id) with
  | none => rw [hmrow] at hres; simp at hres
  | some mtrow =>
    refine ⟨s.dataset_types.foldl (fun m r => max m r.id) 0 + 1,
      ⟨mtrow.id, mtrow.name, Db.get_dataset_fields mtrow.definition⟩, ?_, ?_, ?_⟩
    · simp [DatasetTypeResource.add, M.bind, Db.get_dataset_type_by_name, hfind,
            Db.add_dataset_type, M.pure, DatasetTypeResource.get_by_name,
            DatasetTypeResource.make, MetadataTypeResource.get, Db.get_metadata_type,
            MetadataTypeResource.make, find?_append_none_generic hfind, hmrow]
    · simp [DatasetTypeResource.add, M.bind, Db.get_dataset_type_by_name, hfind,
            Db.add_dataset_type, M.pure, DatasetTypeResource.get_by_name,
            DatasetTypeResource.make, MetadataTypeResource.get, Db.get_metadata_type,
            MetadataTypeResource.make, find?_append_none_generic hfind, hmrow]
    · simp [DatasetTypeResource.add, M.bind, Db.get_dataset_type_by_name, hfind,
            Db.add_dataset_type, M.pure, DatasetTypeResource.get_by_name,
            DatasetTypeResource.make, MetadataTypeResource.get, Db.get_metadata_type,
            MetadataTypeResource.make, find?_append_none_generic hfind, hmrow]

/-- C8: for both `MetadataTypeResource.add(definition)` and
`DatasetTypeResource.add(type)`: if a record of the same name exists with an
unchanged definition, the call is a no-op returning the existing stored
record; if it exists with a different definition, the call fails with a
`ConflictError` naming the record; if absent, the record is registered; and
every successful call returns the result of a post-registration
`get_by_name` read, never the raw input. -/
theorem C8_type_resource_add (defn : MTDef) (lock : Bool) (type_ : DatasetTypeIn)
    (s : DbState) :
    (∀ ex : MTRecord, s.metadata_types.find? (fun r => r.name == defn.name) = some ex →
      (ex.definition = defn →
        MetadataTypeResource.add defn lock s =
          (Except.ok (some ⟨ex.id, ex.name, Db.get_dataset_fields ex.definition⟩),
           s, [])) ∧
      (ex.definition ≠ defn →
        MetadataTypeResource.add defn lock s =
          (Except.error (Err.conflict ("Metadata Type " ++ defn.name)), s, []))) ∧
    (s.metadata_types.find? (fun r => r.name == defn.name) = none →
      ∃ fid,
        (MetadataTypeResource.add defn lock s).2.1.metadata_types =
          s.metadata_types ++ [⟨fid, defn.name, defn⟩] ∧
        (MetadataTypeResource.add defn lock s).1 =
          Except.ok (some ⟨fid, defn.name, Db.get_dataset_fields defn⟩) ∧
        (MetadataTypeResource.add defn lock s).1 =
          (MetadataTypeResource.get_by_name defn.name
            (MetadataTypeResource.add defn lock s).2.1).1) ∧
    (∀ ex : DTRecord, s.dataset_types.find? (fun r => r.name == type_.name) = some ex →
      (s.metadata_types.find? (fun r => r.id == ex.metadata_type_ref)).isSome = true →
      (ex.definition = type_.definition →
        ∃ mt, DatasetTypeResource.add type_ s =
          (Except.ok (some ⟨ex.id, ex.definition.name, mt, ex.definition⟩), s, [])) ∧
      (ex.definition ≠ type_.definition →
        DatasetTypeResource.add type_ s =
          (Except.error (Err.conflict ("Dataset type " ++ type_.name)), s, []))) ∧
    (s.dataset_types.find? (fun r => r.name == type_.name) = none →
      (s.metadata_types.find? (fun r => r.id == type_.metadata_type.id)).isSome = true →
      ∃ fid mt,
        (DatasetTypeResource.add type_ s).2.1.dataset_types =
          s.dataset_types ++
            [⟨fid, type_.name, type_.metadata_type.id, type_.definition⟩] ∧
        (DatasetTypeResource.add type_ s).1 =
          Except.ok (some ⟨fid, type_.definition.name, mt, type_.definition⟩) ∧
        (DatasetTypeResource.add type_ s).1 =
          (DatasetTypeResource.get_by_name type_.name
            (DatasetTypeResource.add type_ s).2.1).1) :=
  ⟨fun ex hfind => mt_add_existing defn lock s ex hfind,
   fun hfind => mt_add_absent defn lock s hfind,
   fun ex hfind hres => dt_add_existing type_ s ex hfind hres,
   fun hfind hres => dt_add_absent type_ s hfind hres⟩

/-- Witness for C8: on the fixture catalog, re-adding the identical `eo`
metadata type is a no-op returning the stored record; adding a different
definition under the name `eo` raises the conflict naming it; adding the new
`telemetry` definition registers it; re-adding the identical `ls8` product is
a no-op; adding a different `ls8` definition conflicts; adding the new `ls7`
product registers it. -/
theorem C8_witness :
    (MetadataTypeResource.add ⟨"eo", ["time"], "body"⟩ false fixS0 =
      (Except.ok (some ⟨1, "eo", Db.get_dataset_fields ⟨"eo", ["time"], "body"⟩⟩),
       fixS0, [])) ∧
    (MetadataTypeResource.add fixMTDefDiff false fixS0 =
      (Except.error (Err.conflict ("Metadata Type " ++ "eo")), fixS0, [])) ∧
    (∃ fid, (MetadataTypeResource.add fixMTDefNew false fixS0).1 =
      Except.ok (some ⟨fid, "telemetry", Db.get_dataset_fields fixMTDefNew⟩)) ∧
    (∃ mt, DatasetTypeResource.add fixDTIn fixS0 =
      (Except.ok (some ⟨7, "ls8", mt, ⟨"ls8", "eo", "body"⟩⟩), fixS0, [])) ∧
    (DatasetTypeResource.add ⟨"ls8", fixDTIn.metadata_type, ⟨"ls8", "eo", "CHANGED"⟩⟩
        fixS0 =
      (Except.error (Err.conflict ("Dataset type " ++ "ls8")), fixS0, [])) ∧
    (∃ fid mt, (DatasetTypeResource.add fixDTInNew fixS0).1 =
      Except.ok (some ⟨fid, "ls7", mt, fixDTInNew.definition⟩)) := by
  have hth := C8_type_resource_add ⟨"eo", ["time"], "body"⟩ false fixDTIn fixS0
  have hth2 := C8_type_resource_add fixMTDefDiff false
    ⟨"ls8", fixDTIn.metadata_type, ⟨"ls8", "eo", "CHANGED"⟩⟩ fixS0
  have hth3 := C8_type_resource_add fixMTDefNew false fixDTInNew fixS0
  refine ⟨?_, ?_, ?_, ?_, ?_, ?_⟩
  · exact (hth.1 fixMT (by rfl)).1 (by rfl)
  · exact (hth2.1 fixMT (by rfl)).2 (by decide)
  · obtain ⟨fid, _, hval, _⟩ := hth3.2.1 (by rfl)
    exact ⟨fid, hval⟩
  · obtain ⟨mt, hval⟩ := (hth.2.2.1 fixDT (by rfl) (by rfl)).1 (by rfl)
    exact ⟨mt, hval⟩
  · exact (hth2.2.2.1 fixDT (by rfl) (by rfl)).2 (by decide)
  · obtain ⟨fid, mt, _, hval, _⟩ := hth3.2.2.2 (by rfl) (by rfl)
    exact ⟨fid, mt, hval⟩

theorem loop_count_eq_length :
    ∀ (types : List (Option DatasetTypeV)) (q : Query) (s : DbState)
      (rows : List DsRow) (q1 : Query) (sA : DbState) (trA : List Event)
      (n : Nat) (q2 : Query) (sB : DbState) (trB : List Event),
    DatasetResource.searchLoop false false types q s = (Except.ok (rows, q1), sA, trA) →
    DatasetResource.countLoop types q s = (Except.ok (n, q2), sB, trB) →
    n = rows.length
  | [], q, s, rows, q1, sA, trA, n, q2, sB, trB => by
    intro h1 h2
    simp [DatasetResource.searchLoop, M.pure] at h1
    simp [DatasetResource.countLoop, M.pure] at h2
    rw [h1.1.1, ← h2.1.1]
    rfl
  | none :: rest, q, s, rows, q1, sA, trA, n, q2, sB, trB => by
    intro h1 h2
    have hloop : DatasetResource.searchLoop false false (none :: rest) q =
        M.raise (Err.attrError "NoneType has no attribute id") := by
      simp [DatasetResource.searchLoop]
    rw [hloop] at h1
    simp [M.raise] at h1
  | some t :: rest, q, s, rows, q1, sA, trA, n, q2, sB, trB => by
    intro h1 h2
    cases hex : to_expressions t.metadata_type.dataset_fields
        (Query.set q "dataset_type_id" (QVal.num (Int.ofNat t.id))) with
    | error e =>
      have hloop : DatasetResource.searchLoop false false (some t :: rest) q =
          M.raise e := by
        simp only [DatasetResource.searchLoop]
        rw [hex]
      rw [hloop] at h1
      simp [M.raise] at h1
    | ok exprs =>
      cases hrec : DatasetResource.searchLoop false false rest
          (Query.set q "dataset_type_id" (QVal.num (Int.ofNat t.id))) s with
      | mk rS restS =>
        cases restS with
        | mk sS trS =>
          cases hrecc : DatasetResource.countLoop rest
              (Query.set q "dataset_type_id" (QVal.num (Int.ofNat t.id))) s with
          | mk rC restC =>
            cases restC with
            | mk sC trC =>
              simp only [DatasetResource.searchLoop, hex, M.bind, M.pure,
                         Db.search_datasets] at h1
              simp only [DatasetResource.countLoop, hex, M.bind, M.pure,
                         Db.count_datasets] at h2
              rw [hrec] at h1
              rw [hrecc] at h2
              cases rS with
              | error e => simp at h1
              | ok prS =>
                cases rC with
                | error e => simp at h2
                | ok prC =>
                  simp only at h1 h2
                  injection h1 with h1a h1b
                  injection h2 with h2a h2b
                  injection h1a with h1c
                  injection h2a with h2c
                  have hlen := loop_count_eq_length rest
                    (Query.set q "dataset_type_id" (QVal.num (Int.ofNat t.id))) s
                    prS.fst prS.snd sS trS prC.fst prC.snd sC trC
                    (by rw [hrec]) (by rw [hrecc])
                  have h1d := congrArg Prod.fst h1c
                  have h2d := congrArg Prod.fst h2c
                  simp only at h1d h2d
                  rw [← h1d, ← h2d, List.length_append, hlen]

theorem make_many_length : ∀ (rows : List DsRow) (s : DbState) (ds : List Dataset)
    (s' : DbState) (tr : List Event),
    DatasetResource.make_many rows s = (Except.ok ds, s', tr) → ds.length = rows.length
  | [], s, ds, s', tr => by
    intro h
    simp [DatasetResource.make_many, M.pure] at h
    rw [h.1]
    rfl
  | r :: t, s, ds, s', tr => by
    intro h
    simp only [DatasetResource.make_many, M.bind, M.pure] at h
    cases hm : DatasetResource.make (some r) s with
    | mk rm restm =>
      cases restm with
      | mk sm trm =>
        rw [hm] at h
        cases rm with
        | error e => simp at h
        | ok d =>
          simp only at h
          cases hmm : DatasetResource.make_many t sm with
          | mk rmm restmm =>
            cases restmm with
            | mk smm trmm =>
              rw [hmm] at h
              cases rmm with
              | error e => simp at h
              | ok ds2 =>
                simp only at h
                injection h with ha hb
                injection ha with hc
                rw [← hc]
                simp [make_many_length t sm ds2 smm trmm (by rw [hmm])]

/-- C7: for every query accepted by both operations, `count` equals the
length of the (forced) `search` sequence: both resolve the same candidate
type set from a copy of the query, drop the `product` key, pin
`dataset_type_id` per candidate, and compile the same expressions — search
concatenates per-type store results while count sums per-type store counts.
-/
theorem C7_count_eq_search_length (query : Query) (s : DbState)
    (n : Nat) (qc : Query) (sc : DbState) (trc : List Event)
    (ds : List Dataset) (qs : Query) (ss : DbState) (trs : List Event)
    (hc : DatasetResource.count query s = (Except.ok (n, qc), sc, trc))
    (hs : DatasetResource.search query s = (Except.ok (ds, qs), ss, trs)) :
    n = ds.length := by
  simp only [DatasetResource.count, DatasetResource.do_count, DatasetResource.search,
             DatasetResource.do_search, Query.copy, M.bind, M.pure] at hc hs
  cases hA : DatasetResource.get_dataset_types query s with
  | mk rA restA =>
    cases restA with
    | mk sA trA =>
      rw [hA] at hc hs
      cases rA with
      | error e => simp at hc
      | ok dts =>
        simp only at hc hs
        cases hB : DatasetResource.searchLoop false false dts
            (if query.hasKey "product" = true then query.del "product" else query) sA with
        | mk rB restB =>
          cases restB with
          | mk sB trB =>
            cases hC : DatasetResource.countLoop dts
                (if query.hasKey "product" = true then query.del "product" else query)
                sA with
            | mk rC restC =>
              cases restC with
              | mk sC trC =>
                rw [hB] at hs
                rw [hC] at hc
                cases rB with
                | error e => simp at hs
                | ok prB =>
                  cases rC with
                  | error e => simp at hc
                  | ok prC =>
                    simp only at hc hs
                    cases hD : DatasetResource.make_many prB.fst sB with
                    | mk rD restD =>
                      cases restD with
                      | mk sD trD =>
                        rw [hD] at hs
                        cases rD with
                        | error e => simp at hs
                        | ok mds =>
                          simp only at hc hs
                          injection hc with hc1 hc2
                          injection hs with hs1 hs2
                          injection hc1 with hc3
                          injection hs1 with hs3
                          have hn := congrArg Prod.fst hc3
                          have hds := congrArg Prod.fst hs3
                          simp only at hn hds
                          rw [← hn, ← hds]
                          have hlen := loop_count_eq_length dts
                            (if query.hasKey "product" = true then query.del "product"
                             else query) sA prB.fst prB.snd sB trB prC.fst prC.snd sC trC
                            (by rw [hB]) (by rw [hC])
                          rw [hlen]
                          exact (make_many_length prB.fst sB mds sD trD (by rw [hD])).symm
/-- Witness for C7: on the fixture store and `time` range query, count is 1
and search returns one dataset; the theorem instantiates to their equality. -/
theorem C7_witness :
    ∃ n ds qc sc trc qs ss trs,
      DatasetResource.count fixTimeQuery fixSearchS = (Except.ok (n, qc), sc, trc) ∧
      DatasetResource.search fixTimeQuery fixSearchS = (Except.ok (ds, qs), ss, trs) ∧
      n = ds.length := by
  have hc : DatasetResource.count fixTimeQuery fixSearchS =
      (Except.ok (1, fixTimeQuery), fixSearchS, [Event.countStore]) := rfl
  have hs : DatasetResource.search fixTimeQuery fixSearchS =
      (Except.ok ([Dataset.mk "r1" 7 (MDoc.mk "R1" []) [] none], fixTimeQuery),
       fixSearchS, [Event.searchStore]) := rfl
  exact ⟨1, [Dataset.mk "r1" 7 (MDoc.mk "R1" []) [] none], _, _, _, _, _, _, hc, hs,
    C7_count_eq_search_length fixTimeQuery fixSearchS 1 fixTimeQuery fixSearchS
      [Event.countStore] [Dataset.mk "r1" 7 (MDoc.mk "R1" []) [] none] fixTimeQuery
      fixSearchS [Event.searchStore] hc hs⟩

theorem contains_of_lookup {s : DbState} {i : DsId}
    (h : (s.lookupDs i).isSome = true) :
    Db.contains_dataset i s = (Except.ok true, s, []) := by
  unfold Db.contains_dataset
  have : s.datasets.any (fun r => r.id == i) = true := by
    rw [List.any_eq_true]
    obtain ⟨x, hx1, hx2⟩ := List.find?_isSome.mp h
    exact ⟨x, hx1, hx2⟩
  rw [this]

theorem add_core_present (d : Dataset) (s : DbState) (a : Dataset)
    (hok : (DatasetResource.add_core d false s).1 = Except.ok a) :
    ((DatasetResource.add_core d false s).2.2.1.lookupDs d.id).isSome = true := by
  cases d with
  | mk i tid doc srcs uri =>
    cases has : DatasetResource.addSources srcs s with
    | mk r0 rest0 =>
      cases rest0 with
      | mk s1 tr1 =>
        cases r0 with
        | error e =>
          exfalso
          rw [show (DatasetResource.add_core (Dataset.mk i tid doc srcs uri) false s).1 =
              Except.error e from by
            simp [DatasetResource.add_core, has]] at hok
          cases hok
        | ok u0 =>
          cases hl : s1.lookupDs (Dataset.mk i tid doc srcs uri).id with
          | none =>
            obtain ⟨s2, tr2, hab, hd, hdt, hmt, ha, htr⟩ :=
              addBody_fresh (Dataset.mk i tid doc srcs uri) (doc.setSources []) s1 hl
            obtain ⟨s3, tr3, hl1, hl2, _, _, _, _⟩ :=
              addLocation_effects (Dataset.mk i tid doc srcs uri) s2
            rw [show (DatasetResource.add_core (Dataset.mk i tid doc srcs uri)
                false s).2.2.1 = s3 from by
              simp [DatasetResource.add_core, Dataset.metadata_doc, Dataset.sources, has,
                    hab, hl1]]
            unfold DbState.lookupDs
            rw [hl2, hd]
            have hnone : s1.datasets.find? (fun r => r.id == i) = none := hl
            simp only [Dataset.id, Dataset.type_id]
            rw [lookup_append_of_none hnone]
            simp
          | some row =>
            have hbp := addBody_preserves (Dataset.mk i tid doc srcs uri)
              (doc.setSources []) s1
            obtain ⟨ext1, hb1, hb2, hb3, hb4⟩ := hbp
            cases hab : DatasetResource.addBody (Dataset.mk i tid doc srcs uri)
                (doc.setSources []) s1 with
            | mk r rest =>
              cases rest with
              | mk s2 tr2 =>
                rw [hab] at hb1
                simp only at hb1
                cases r with
                | error e =>
                  exfalso
                  rw [show (DatasetResource.add_core (Dataset.mk i tid doc srcs uri)
                      false s).1 = Except.error e from by
                    simp [DatasetResource.add_core, Dataset.metadata_doc,
                          Dataset.sources, has, hab]] at hok
                  cases hok
                | ok u =>
                  obtain ⟨s3, tr3, hl1, hl2, _, _, _, _⟩ :=
                    addLocation_effects (Dataset.mk i tid doc srcs uri) s2
                  rw [show (DatasetResource.add_core (Dataset.mk i tid doc srcs uri)
                      false s).2.2.1 = s3 from by
                    simp [DatasetResource.add_core, Dataset.metadata_doc,
                          Dataset.sources, has, hab, hl1]]
                  unfold DbState.lookupDs
                  rw [hl2, hb1]
                  rw [lookup_append_of_some hl]
                  rfl

theorem addSources_all_present : ∀ (l : List (String × Dataset)) (s : DbState),
    (DatasetResource.addSources l s).1 = Except.ok () →
    ∀ p ∈ l, (((DatasetResource.addSources l s).2.1).lookupDs p.snd.id).isSome = true
  | [], s => by
    intro hok p hp
    cases hp
  | (c, src) :: t, s => by
    intro hok p hp
    cases hac : DatasetResource.add_core src false s with
    | mk r rest =>
      cases rest with
      | mk doc1 rest1 =>
        cases rest1 with
        | mk s1 tr1 =>
          cases r with
          | error e =>
            exfalso
            rw [show (DatasetResource.addSources ((c, src) :: t) s).1 = Except.error e
                from by simp [DatasetResource.addSources, hac]] at hok
            cases hok
          | ok aa =>
            have hpres : (s1.lookupDs src.id).isSome = true := by
              have := add_core_present src s aa (by rw [hac])
              rw [hac] at this
              exact this
            cases hat : DatasetResource.addSources t s1 with
            | mk r2 rest2 =>
              cases rest2 with
              | mk s2 tr2 =>
                have hfinal : (DatasetResource.addSources ((c, src) :: t) s).2.1 = s2 := by
                  simp [DatasetResource.addSources, hac, hat]
                cases r2 with
                | error e =>
                  exfalso
                  rw [show (DatasetResource.addSources ((c, src) :: t) s).1 =
                      Except.error e from by
                    simp [DatasetResource.addSources, hac, hat]] at hok
                  cases hok
                | ok u2 =>
                  rw [hfinal]
                  rcases List.mem_cons.mp hp with hph | hpt
                  · subst hph
                    obtain ⟨ext2, hd2, _, _, _⟩ := addSources_preserves t s1
                    rw [hat] at hd2
                    simp only at hd2
                    unfold DbState.lookupDs at hpres ⊢
                    rw [hd2]
                    cases hfind : s1.datasets.find?
                        (fun r => r.id == (c, src).snd.id) with
                    | none =>
                      rw [hfind] at hpres
                      simp at hpres
                    | some row =>
                      rw [lookup_append_of_some hfind]
                      rfl
                  · have := addSources_all_present t s1 (by rw [hat]) p hpt
                    rw [hat] at this
                    exact this

theorem addBody_trace_head (d : Dataset) (stripped : MDoc) (s : DbState) :
    ∃ tr2, (DatasetResource.addBody d stripped s).2.2 =
      Event.insertDataset d.id :: tr2 := by
  cases hl : s.lookupDs d.id with
  | none =>
    obtain ⟨s', tr2, hb, _, _, _, _, _⟩ := addBody_fresh d stripped s hl
    exact ⟨tr2, by rw [hb]⟩
  | some row =>
    obtain ⟨s2, tr2, hti, hd, hdt, hmt, ha⟩ := tryInsert_present d stripped s row hl
    have hgs := get_noSources_state d.id s2
    cases hg : DatasetResource.get d.id false s2 with
    | mk r1 rest =>
      cases rest with
      | mk s3 tr3 =>
        rw [hg] at hgs
        simp only at hgs
        subst hgs
        cases r1 with
        | ok existing =>
          by_cases hbeq :
              (existing.metadata_doc == jsonify_document stripped) = true
          · refine ⟨tr2 ++ (tr3 ++ []), ?_⟩
            simp [DatasetResource.addBody, M.bind, M.begin, hti, hg,
                  check_doc_unchanged, hbeq, M.pure]
          · refine ⟨tr2 ++ (tr3 ++ []), ?_⟩
            simp [DatasetResource.addBody, M.bind, M.begin, hti, hg,
                  check_doc_unchanged, hbeq, M.pure, M.raise]
        | error e =>
          refine ⟨tr2 ++ tr3, ?_⟩
          simp [DatasetResource.addBody, M.bind, M.begin, hti, hg]

mutual

theorem add_core_trace : ∀ (d : Dataset) (s : DbState) (a : Dataset),
    (DatasetResource.add_core d false s).1 = Except.ok a →
    ∃ tr1 tr2, (DatasetResource.add_core d false s).2.2.2 =
        tr1 ++ Event.insertDataset d.id :: tr2 ∧
      ∀ sd ∈ transSources d, Event.insertDataset sd.id ∈ tr1
  | Dataset.mk i tid doc srcs uri, s, a => by
    intro hok
    cases has : DatasetResource.addSources srcs s with
    | mk r0 rest0 =>
      cases rest0 with
      | mk s1 trS =>
        cases r0 with
        | error e =>
          exfalso
          rw [show (DatasetResource.add_core (Dataset.mk i tid doc srcs uri) false s).1 =
              Except.error e from by
            simp [DatasetResource.add_core, has]] at hok
          cases hok
        | ok u0 =>
          have hsrctr := addSources_trace srcs s (by rw [has])
          rw [has] at hsrctr
          simp only at hsrctr
          obtain ⟨trB, hhead⟩ :=
            addBody_trace_head (Dataset.mk i tid doc srcs uri) (doc.setSources []) s1
          cases hab : DatasetResource.addBody (Dataset.mk i tid doc srcs uri)
              (doc.setSources []) s1 with
          | mk r rest =>
            cases rest with
            | mk s2 tr2 =>
              rw [hab] at hhead
              simp only at hhead
              cases r with
              | error e =>
                exfalso
                rw [show (DatasetResource.add_core (Dataset.mk i tid doc srcs uri)
                    false s).1 = Except.error e from by
                  simp [DatasetResource.add_core, Dataset.metadata_doc, Dataset.sources,
                        has, hab]] at hok
                cases hok
              | ok u =>
                obtain ⟨s3, tr3, hl1, _, _, _, _, _⟩ :=
                  addLocation_effects (Dataset.mk i tid doc srcs uri) s2
                have hfinal : (DatasetResource.add_core (Dataset.mk i tid doc srcs uri)
                    false s).2.2.2 = trS ++ tr2 ++ tr3 := by
                  simp [DatasetResource.add_core, Dataset.metadata_doc, Dataset.sources,
                        has, hab, hl1]
                refine ⟨trS, trB ++ tr3, ?_, ?_⟩
                · rw [hfinal, hhead]
                  simp [Dataset.id]
                · intro sd hsd
                  exact hsrctr sd hsd

theorem addSources_trace : ∀ (l : List (String × Dataset)) (s : DbState),
    (DatasetResource.addSources l s).1 = Except.ok () →
    ∀ sd ∈ transSourcesList l,
      Event.insertDataset sd.id ∈ (DatasetResource.addSources l s).2.2
  | [], s => by
    intro hok sd hsd
    unfold transSourcesList at hsd
    cases hsd
  | (c, src) :: t, s => by
    intro hok sd hsd
    cases hac : DatasetResource.add_core src false s with
    | mk r rest =>
      cases rest with
      | mk doc1 rest1 =>
        cases rest1 with
        | mk s1 trH =>
          cases r with
          | error e =>
            exfalso
            rw [show (DatasetResource.addSources ((c, src) :: t) s).1 = Except.error e
                from by simp [DatasetResource.addSources, hac]] at hok
            cases hok
          | ok aa =>
            cases hat : DatasetResource.addSources t s1 with
            | mk r2 rest2 =>
              cases rest2 with
              | mk s2 trT =>
                cases r2 with
                | error e =>
                  exfalso
                  rw [show (DatasetResource.addSources ((c, src) :: t) s).1 =
                      Except.error e from by
                    simp [DatasetResource.addSources, hac, hat]] at hok
                  cases hok
                | ok u2 =>
                  have hfinal : (DatasetResource.addSources ((c, src) :: t) s).2.2 =
                      trH ++ trT := by
                    simp [DatasetResource.addSources, hac, hat]
                  rw [hfinal]
                  unfold transSourcesList at hsd
                  rw [List.mem_append] at hsd ⊢
                  rcases hsd with hsd | hsd
                  · rw [List.mem_append] at hsd
                    obtain ⟨tr1, tr2, htr, hall⟩ :=
                      add_core_trace src s aa (by rw [hac])
                    rw [hac] at htr
                    simp only at htr
                    rcases hsd with hsd | hsd
                    · left
                      rw [htr]
                      rw [List.mem_append]
                      exact Or.inl (hall sd hsd)
                    · left
                      rw [List.mem_singleton] at hsd
                      subst hsd
                      rw [htr]
                      rw [List.mem_append]
                      right
                      exact List.mem_cons_self _ _
                  · right
                    have := addSources_trace t s1 (by rw [hat]) sd hsd
                    rw [hat] at this
                    exact this

end

/-- C5: within one `add(dataset, skip_sources=false)` call, (i) in the issued
store-operation trace, the row insert of every dataset transitively reachable
via `sources` precedes the dependent dataset's own row insert (which itself
precedes its source-edge inserts, emitted after it inside the same
transaction body); and (ii) at the point the dependent's row and edges are
written — the state produced by the recursive sources phase — `has(source)`
is true for every direct source. -/
theorem C5_sources_inserted_first (d : Dataset) (s : DbState) (a : Dataset)
    (s' : DbState) (tr : List Event)
    (hrun : DatasetResource.add d false s = (Except.ok a, s', tr)) :
    (∃ tr1 tr2, tr = tr1 ++ Event.insertDataset d.id :: tr2 ∧
      ∀ sd ∈ transSources d, Event.insertDataset sd.id ∈ tr1) ∧
    (∀ (u : Unit) (s1 : DbState) (trS : List Event),
      DatasetResource.addSources d.sources s = (Except.ok u, s1, trS) →
      ∀ p ∈ d.sources, DatasetResource.has p.snd s1 = (Except.ok true, s1, [])) := by
  constructor
  · cases hcore : DatasetResource.add_core d false s with
    | mk r rest =>
      cases rest with
      | mk doc rest1 =>
        cases rest1 with
        | mk s'' tr'' =>
          have hadd := add_components hcore
          rw [hadd] at hrun
          injection hrun with h1 h2
          injection h2 with h2 h3
          subst h2
          subst h3
          obtain ⟨tr1, tr2, htr, hall⟩ := add_core_trace d s a (by rw [hcore, h1])
          rw [hcore] at htr
          simp only at htr
          exact ⟨tr1, tr2, htr, hall⟩
  · intro u s1 trS haddsrc p hp
    have hpres := addSources_all_present d.sources s (by rw [haddsrc]) p hp
    rw [haddsrc] at hpres
    simp only at hpres
    unfold DatasetResource.has
    exact contains_of_lookup hpres

/-- Witness for C5: in the fixture run the source row insert (`s1`) precedes
the dependent's row insert (`d1`), and after the sources phase the source is
already indexed (`has` is true). -/
theorem C5_witness :
    ∃ tr1 tr2,
      ([Event.insertDataset "s1", Event.insertDataset "d1",
        Event.insertSource "raw" "d1" "s1", Event.ensureLocation "d1"] : List Event) =
        tr1 ++ Event.insertDataset "d1" :: tr2 ∧
      (∀ sd ∈ transSources fixD, Event.insertDataset sd.id ∈ tr1) ∧
      DatasetResource.has fixSrc
        ⟨[⟨"s1", 7, MDoc.mk "S" [], none, []⟩], [], [], [], [fixMT], [fixDT]⟩ =
        (Except.ok true,
         ⟨[⟨"s1", 7, MDoc.mk "S" [], none, []⟩], [], [], [], [fixMT], [fixDT]⟩, []) := by
  have hrun : DatasetResource.add fixD false fixS0 =
      (Except.ok fixD, fixS1,
       [Event.insertDataset "s1", Event.insertDataset "d1",
        Event.insertSource "raw" "d1" "s1", Event.ensureLocation "d1"]) := rfl
  obtain ⟨⟨tr1, tr2, htr, hall⟩, hhas⟩ :=
    C5_sources_inserted_first fixD fixS0 fixD fixS1 _ hrun
  have haddsrc : DatasetResource.addSources fixD.sources fixS0 =
      (Except.ok (),
       ⟨[⟨"s1", 7, MDoc.mk "S" [], none, []⟩], [], [], [], [fixMT], [fixDT]⟩,
       [Event.insertDataset "s1"]) := rfl
  have hone := hhas ()
    ⟨[⟨"s1", 7, MDoc.mk "S" [], none, []⟩], [], [], [], [fixMT], [fixDT]⟩
    [Event.insertDataset "s1"] haddsrc ("raw", fixSrc)
    (List.mem_singleton.mpr rfl)
  exact ⟨tr1, tr2, htr, hall, hone⟩

theorem insertEdges_partial :
    ∀ (pre : List (String × Dataset)) (c : String) (sd : Dataset)
      (post : List (String × Dataset)) (i : DsId) (s : DbState),
    (∀ p ∈ pre, s.sourceEdges.any
      (fun e2 => e2.classifier == p.fst && e2.dataset_ref == i) = false) →
    (pre.map Prod.fst).Nodup →
    s.sourceEdges.any (fun e2 => e2.classifier == c && e2.dataset_ref == i) = true →
    ∃ m, DatasetResource.insertEdges i (pre ++ (c, sd) :: post) s =
      (Except.error (Err.duplicateRecord m),
       { s with sourceEdges := s.sourceEdges ++
           pre.map (fun p => ⟨p.fst, i, p.snd.id⟩) },
       (pre.map (fun p => Event.insertSource p.fst i p.snd.id)) ++
         [Event.insertSource c i sd.id]) := by
  intro pre
  induction pre with
  | nil =>
    intro c sd post i s hpre hnodup hdup
    refine ⟨"duplicate source " ++ c ++ " for dataset " ++ i, ?_⟩
    simp [DatasetResource.insertEdges, M.bind, Db.insert_dataset_source, hdup]
  | cons hd tl ih =>
    intro c sd post i s hpre hnodup hdup
    obtain ⟨c0, x⟩ := hd
    have hc0 : s.sourceEdges.any
        (fun e2 => e2.classifier == c0 && e2.dataset_ref == i) = false :=
      hpre (c0, x) (List.mem_cons_self _ _)
    set s1 : DbState := { s with sourceEdges := s.sourceEdges ++ [⟨c0, i, x.id⟩] }
      with hs1
    have hpre1 : ∀ p ∈ tl, s1.sourceEdges.any
        (fun e2 => e2.classifier == p.fst && e2.dataset_ref == i) = false := by
      intro p hp
      have hne : p.fst ≠ c0 := by
        intro heq
        have : c0 ∈ tl.map Prod.fst := by
          rw [← heq]
          exact List.mem_map.mpr ⟨p, hp, rfl⟩
        simp only [List.map_cons, List.nodup_cons] at hnodup
        exact hnodup.1 this
      rw [hs1]
      simp only [List.any_append, Bool.or_eq_false_iff]
      refine ⟨hpre p (List.mem_cons_of_mem _ hp), ?_⟩
      simp [hne, Ne.symm hne]
    have hnodup1 : (tl.map Prod.fst).Nodup := by
      simp only [List.map_cons, List.nodup_cons] at hnodup
      exact hnodup.2
    have hdup1 : s1.sourceEdges.any
        (fun e2 => e2.classifier == c && e2.dataset_ref == i) = true := by
      rw [hs1]
      simp only [List.any_append, Bool.or_eq_true]
      exact Or.inl hdup
    obtain ⟨m, hm⟩ := ih c sd post i s1 hpre1 hnodup1 hdup1
    refine ⟨m, ?_⟩
    have hstep : DatasetResource.insertEdges i (((c0, x) :: tl) ++ (c, sd) :: post) s =
        (match DatasetResource.insertEdges i (tl ++ (c, sd) :: post) s1 with
         | (r, s2, tr2) => (r, s2, [Event.insertSource c0 i x.id] ++ tr2)) := by
      simp [DatasetResource.insertEdges, M.bind, Db.insert_dataset_source, hc0]
    rw [hstep, hm]
    simp [hs1, List.append_assoc]

theorem addLocation_edges (d : Dataset) (s : DbState) :
    (DatasetResource.addLocation d s).2.1.sourceEdges = s.sourceEdges := by
  cases hu : d.local_uri with
  | none => simp [DatasetResource.addLocation, hu, M.pure]
  | some uri =>
    by_cases hl : (s.locations.any (fun p => p.fst == d.id && p.snd == uri)) = true
    · simp [DatasetResource.addLocation, hu, M.catchDup, Db.ensure_dataset_location, hl,
            M.pure]
    · simp [DatasetResource.addLocation, hu, M.catchDup, Db.ensure_dataset_location, hl,
            M.pure]

/-- C9: in `add`, when the dataset row is newly inserted but one of the
source-edge inserts raises `DuplicateRecordError`, the handler sits outside
the per-edge loop: the remaining edges are not inserted (the store gains
exactly the edges before the failing one), the transaction still commits with
that partial edge set together with the new row, `add` returns successfully,
and the duplicate-metadata consistency check is never performed (no
`getDataset` store call appears in the trace), because the row insert
reported success. -/
theorem C9_edge_dup_caught_outside_loop
    (d : Dataset) (s : DbState) (pre post : List (String × Dataset))
    (c : String) (sd : Dataset)
    (hsrcs : d.sources = pre ++ (c, sd) :: post)
    (hfresh : s.lookupDs d.id = none)
    (hpre : ∀ p ∈ pre, s.sourceEdges.any
      (fun e2 => e2.classifier == p.fst && e2.dataset_ref == d.id) = false)
    (hnodup : (pre.map Prod.fst).Nodup)
    (hdup : s.sourceEdges.any
      (fun e2 => e2.classifier == c && e2.dataset_ref == d.id) = true) :
    ∃ s' tr,
      DatasetResource.add d true s = (Except.ok d, s', tr) ∧
      s'.lookupDs d.id =
        some ⟨d.id, d.type_id, d.metadata_doc.setSources [], none, []⟩ ∧
      s'.sourceEdges = s.sourceEdges ++ pre.map (fun p => ⟨p.fst, d.id, p.snd.id⟩) ∧
      Event.getDataset d.id ∉ tr := by
  cases d with
  | mk i tid doc srcs uri =>
    have hsrcs' : srcs = pre ++ (c, sd) :: post := hsrcs
    subst hsrcs'
    have hins : Db.insert_dataset (doc.setSources []) i tid s =
        (Except.ok true,
         { s with datasets := s.datasets ++ [⟨i, tid, doc.setSources [], none, []⟩] },
         [Event.insertDataset i]) := by
      unfold Db.insert_dataset
      rw [show s.datasets.find? (fun r => r.id == i) = none from hfresh]
    set sRow : DbState :=
      { s with datasets := s.datasets ++ [⟨i, tid, doc.setSources [], none, []⟩] }
      with hsRow
    obtain ⟨m, hedges⟩ := insertEdges_partial pre c sd post i sRow
      (by intro p hp; exact hpre p hp) hnodup hdup
    set sEdges : DbState := { sRow with sourceEdges := sRow.sourceEdges ++ pre.map (fun p => (⟨p.fst, i, p.snd.id⟩ : SourceEdge)) } with hsEdges
    have hti : DatasetResource.tryInsert (Dataset.mk i tid doc (pre ++ (c, sd) :: post)
        uri) (doc.setSources []) s =
        (Except.ok true, sEdges,
         Event.insertDataset i ::
           (pre.map (fun p => Event.insertSource p.fst i p.snd.id) ++
            [Event.insertSource c i sd.id])) := by
      have hstep : DatasetResource.tryInsert (Dataset.mk i tid doc
          (pre ++ (c, sd) :: post) uri) (doc.setSources []) s =
          (match DatasetResource.insertEdges i (pre ++ (c, sd) :: post) sRow with
           | (Except.ok a, s2, tr2) =>
             (Except.ok true, s2, [Event.insertDataset i] ++ tr2)
           | (Except.error (Err.duplicateRecord msg), s2, tr2) =>
             (Except.ok true, s2, [Event.insertDataset i] ++ tr2)
           | (Except.error e, s2, tr2) =>
             (Except.error e, s2, [Event.insertDataset i] ++ tr2)) := by
        unfold DatasetResource.tryInsert
        simp only [Dataset.id, Dataset.type_id, Dataset.sources]
        rw [hins]
      rw [hstep, hedges]
      rfl
    have hbody : DatasetResource.addBody (Dataset.mk i tid doc (pre ++ (c, sd) :: post)
        uri) (doc.setSources []) s =
        (Except.ok (), sEdges,
         (Event.insertDataset i ::
           (pre.map (fun p => Event.insertSource p.fst i p.snd.id) ++
            [Event.insertSource c i sd.id])) ++ []) := by
      unfold DatasetResource.addBody
      simp only [M.bind, M.begin, hti, if_true, M.pure]
    obtain ⟨s3, trL, hloc, hlocd, _, _, _, htrL⟩ :=
      addLocation_effects (Dataset.mk i tid doc (pre ++ (c, sd) :: post) uri) sEdges
    have hlocEdges := addLocation_edges
      (Dataset.mk i tid doc (pre ++ (c, sd) :: post) uri) sEdges
    rw [hloc] at hlocEdges
    simp only at hlocEdges
    have hcore : DatasetResource.add_core (Dataset.mk i tid doc (pre ++ (c, sd) :: post)
        uri) true s =
        (Except.ok (Dataset.mk i tid doc (pre ++ (c, sd) :: post) uri),
         (doc.setSources []).setSources doc.lineage_sources, s3,
         ((Event.insertDataset i ::
            (pre.map (fun p => Event.insertSource p.fst i p.snd.id) ++
             [Event.insertSource c i sd.id])) ++ []) ++ trL) := by
      simp [DatasetResource.add_core, Dataset.metadata_doc, Dataset.sources, hbody, hloc]
    refine ⟨s3,
      ((Event.insertDataset i ::
         (pre.map (fun p => Event.insertSource p.fst i p.snd.id) ++
          [Event.insertSource c i sd.id])) ++ []) ++ trL,
      ?_, ?_, ?_, ?_⟩
    · have := add_components hcore
      simpa using this
    · unfold DbState.lookupDs
      rw [hlocd, hsEdges]
      simp only [Dataset.id, Dataset.type_id, Dataset.metadata_doc]
      show (sRow.datasets.find? (fun r => r.id == i)) =
        some ⟨i, tid, doc.setSources [], none, []⟩
      rw [hsRow]
      simp only
      have hnone : s.datasets.find? (fun r => r.id == i) = none := hfresh
      rw [lookup_append_of_none hnone]
      simp
    · rw [hlocEdges]
      simp [Dataset.id]
    · intro hmem
      simp only [List.append_nil] at hmem
      rw [List.mem_append] at hmem
      rcases hmem with hmem | hmem
      · simp [Dataset.id] at hmem
      · obtain ⟨j, hj⟩ := htrL _ hmem
        cases hj

/-- Witness for C9: adding `fixD9` (row absent, middle edge `raw` already in
the store) succeeds, commits the new row plus only the `c0` edge that
preceded the failing one, and issues no `getDataset` call (the consistency
check is skipped). -/
theorem C9_witness :
    ∃ s' tr,
      DatasetResource.add fixD9 true fixS9 = (Except.ok fixD9, s', tr) ∧
      s'.lookupDs "d9" = some ⟨"d9", 7, MDoc.mk "D9" [], none, []⟩ ∧
      s'.sourceEdges = [⟨"raw", "d9", "zz"⟩, ⟨"c0", "d9", "sa"⟩] ∧
      Event.getDataset "d9" ∉ tr := by
  obtain ⟨s', tr, h1, h2, h3, h4⟩ :=
    C9_edge_dup_caught_outside_loop fixD9 fixS9 [("c0", fixSA)] [("c2", fixSC)]
      "raw" fixSB rfl rfl (by decide) (by decide) rfl
  exact ⟨s', tr, h1, h2, h3, h4⟩
